import Mathlib

/-!
Verification development for the AsyncAPI document-assembly and
reference-resolution engine of `sio_asyncapi` (file
`src/sio_asyncapi/asyncapi/docs.py` and its node models).

Python strings are modelled as lists of characters (`Str`), Python dicts
as association lists in insertion order (`alookup` / `aset` mirror
`d[k]` reads and `d[k] = v` writes), and Python `None` / optional values
as `Option`.  Exceptions are modelled by an `Option BuildErr` component
in each builder's result, paired with the document state at the moment
the exception is raised (CPython mutates the document in place, so
partial mutations survive an exception).  All definitions are
executable, and all recursions are structural, so concrete runs reduce
by `rfl` / `decide`.
-/

/-- Python strings, modelled as their character lists. -/
abbrev Str := List Char

/-- The string constant `"on_"` (the handler-name convention stripped by `add_event`). -/
def sOn : Str := "on_".data

/-- The string constant `"return"` (the key of a declared return type in `get_type_hints`). -/
def sReturn : Str := "return".data

/-- The string constant `"Payload"`. -/
def sPayload : Str := "Payload".data

/-- The string constant `"Ack"`. -/
def sAck : Str := "Ack".data

/-- The string constant `"_ack"`. -/
def sUnderscoreAck : Str := "_ack".data

/-- The string constant `"Schema"`. -/
def sSchema : Str := "Schema".data

/-- The string constant `"UUIDRef"`. -/
def sUUIDRef : Str := "UUIDRef".data

/-- The string constant `"success"`. -/
def sSuccess : Str := "success".data

/-- The string constant `"error"`. -/
def sError : Str := "error".data

/-- The string constant `"data"`. -/
def sData : Str := "data".data

/-- The string constant `"bool"`. -/
def sBool : Str := "bool".data

/-- The string constant `"Any"`. -/
def sAny : Str := "Any".data

/-- The string constant `"/channels/"`. -/
def sChannelsP : Str := "/channels/".data

/-- The string constant `"/messages/"`. -/
def sMessagesP : Str := "/messages/".data

/-- The string constant `"#/components/schemas/"`. -/
def sHashCompSchemasP : Str := "#/components/schemas/".data

/-- The string constant `"/components/schemas/"`. -/
def sCompSchemasP : Str := "/components/schemas/".data

/-- The string constant `"/servers/"`. -/
def sServersP : Str := "/servers/".data

/-- The string constant `"/"`. -/
def sSlash : Str := "/".data

/-- The string constant `"receive"` (the default operation action). -/
def sReceive : Str := "receive".data

/-- Read access `d[k]` on a Python dict modelled as an association list
(keys are unique in an actual dict, so the first match is the match). -/
def alookup {κ α : Type} [DecidableEq κ] : List (κ × α) → κ → Option α
  | [], _ => none
  | (k, v) :: rest, key => if k = key then some v else alookup rest key

/-- Write access `d[k] = v` on a Python dict modelled as an association
list: an existing key is updated in place, a new key is appended at the
end (CPython dicts preserve insertion order). -/
def aset {κ α : Type} [DecidableEq κ] : List (κ × α) → κ → α → List (κ × α)
  | [], key, v => [(key, v)]
  | (k, w) :: rest, key, v =>
      if k = key then (k, v) :: rest else (k, w) :: aset rest key v

theorem alookup_aset_self {κ α : Type} [DecidableEq κ] (l : List (κ × α)) (k : κ) (v : α) :
    alookup (aset l k v) k = some v := by
  induction l with
  | nil => simp [aset, alookup]
  | cons hd tl ih =>
      obtain ⟨k0, v0⟩ := hd
      by_cases h : k0 = k
      · subst h; simp [aset, alookup]
      · simp [aset, alookup, h, ih]

theorem alookup_aset_ne {κ α : Type} [DecidableEq κ] (l : List (κ × α)) (k k' : κ) (v : α)
    (h : k ≠ k') : alookup (aset l k' v) k = alookup l k := by
  induction l with
  | nil =>
      simp only [aset, alookup]
      rw [if_neg (fun hh => h hh.symm)]
  | cons hd tl ih =>
      obtain ⟨k0, v0⟩ := hd
      by_cases h0 : k0 = k'
      · have hk : ¬ k' = k := fun hh => h hh.symm
        subst h0
        simp [aset, alookup, hk]
      · simp [aset, alookup, h0, ih]

theorem alookup_ne_nil {κ α : Type} [DecidableEq κ] (l : List (κ × α)) (k : κ) (v : α)
    (h : alookup l k = some v) : l ≠ [] := by
  intro he; subst he; simp [alookup] at h

/-- A list is never equal to itself extended by a nonempty suffix. -/
theorem self_ne_append_cons {α : Type} (l t : List α) (c : α) : l ≠ l ++ c :: t := by
  intro h
  have := congrArg List.length h
  simp at this

/-- Python `str.lower()` (ASCII view). -/
def pyLower (s : Str) : Str := s.map Char.toLower

/-- Helper for `pyTitle`: `prevCased` records whether the previous
character was a cased (alphabetic) character. -/
def pyTitleGo : Bool → Str → Str
  | _, [] => []
  | prevCased, c :: cs =>
      if c.isAlpha then
        (if prevCased then c.toLower else c.toUpper) :: pyTitleGo true cs
      else
        c :: pyTitleGo false cs

/-- Python `str.title()` (ASCII view): the first letter of every
alphabetic run is uppercased, the rest lowercased. -/
def pyTitle (s : Str) : Str := pyTitleGo false s

/-- Python `str.replace("_", "")`. -/
def removeUnderscores (s : Str) : Str := s.filter (fun c => c ≠ '_')

/-- Python `str.replace("/", "")`: the body of `AsyncAPIDoc.sanitize_id`. -/
def sanitize_id (s : Str) : Str := s.filter (fun c => c ≠ '/')

/-- Python `str.split("/")`: splits on every slash, keeping empty
segments, and yields one (possibly empty) segment for the empty string. -/
def splitSlash : Str → List Str
  | [] => [[]]
  | c :: cs =>
      let r := splitSlash cs
      if c = '/' then [] :: r else (c :: r.headD []) :: r.tail

/-- Inverse image used to state the round-trip: `"/".join(segs)`. -/
def joinSlash : List Str → Str
  | [] => []
  | [s] => s
  | s :: rest => s ++ '/' :: joinSlash rest

theorem splitSlash_ne_nil (s : Str) : splitSlash s ≠ [] := by
  induction s with
  | nil => simp [splitSlash]
  | cons c cs ih =>
      by_cases h : c = '/' <;> simp [splitSlash, h]

theorem splitSlash_no_slash (s : Str) (h : ('/' : Char) ∉ s) : splitSlash s = [s] := by
  induction s with
  | nil => simp [splitSlash]
  | cons c cs ih =>
      have hc : c ≠ '/' := by intro hh; exact h (hh ▸ List.mem_cons_self c cs)
      have hcs : ('/' : Char) ∉ cs := fun hh => h (List.mem_cons_of_mem c hh)
      simp [splitSlash, hc, ih hcs]

theorem splitSlash_append (s t : Str) (h : ('/' : Char) ∉ s) :
    splitSlash (s ++ '/' :: t) = s :: splitSlash t := by
  induction s with
  | nil => simp [splitSlash]
  | cons c cs ih =>
      have hc : c ≠ '/' := by intro hh; exact h (hh ▸ List.mem_cons_self c cs)
      have hcs : ('/' : Char) ∉ cs := fun hh => h (List.mem_cons_of_mem c hh)
      simp [splitSlash, hc, ih hcs]

theorem splitSlash_joinSlash (segs : List Str) (h1 : segs ≠ [])
    (h2 : ∀ x ∈ segs, ('/' : Char) ∉ x) : splitSlash (joinSlash segs) = segs := by
  induction segs with
  | nil => exact absurd rfl h1
  | cons s rest ih =>
      cases rest with
      | nil => exact splitSlash_no_slash s (h2 s (List.mem_cons_self s []))
      | cons r rest' =>
          have hs : ('/' : Char) ∉ s := h2 s (List.mem_cons_self s (r :: rest'))
          have hrest : ∀ x ∈ r :: rest', ('/' : Char) ∉ x :=
            fun x hx => h2 x (List.mem_cons_of_mem s hx)
          have hjoin : joinSlash (s :: r :: rest') = s ++ '/' :: joinSlash (r :: rest') := rfl
          rw [hjoin, splitSlash_append s _ hs, ih (by simp) hrest]

/-!
Reference addressing (source: `AsyncAPIDoc.resolve_ref` and
`AsyncAPIDoc.make_ref`, docs.py lines 189-206).

The concrete node classes of the document tree (`AsyncAPIBase`, the
component models, `Reference`) are not part of the sources under
verification, so the tree that resolution walks is modelled from the
spec: navigation goes "from the document root by attribute/key lookup",
which we model as child lookup in a labelled tree.  `resolve_ref` itself
(prefix check, split on `/`, iterated lookup, pass-through of
non-reference values) is translated from the source.  Resolution is a
pure read: the model returns a result and never a modified tree.
-/

/-- Modelled from the spec: a node of the live document graph.  The node
classes themselves (`AsyncAPIBase` and the component models) are not in
the sources under verification; per the spec each path segment is used
to navigate "by attribute/key lookup", modelled as lookup among a node's
labelled children.  A `scalar` node has no children. -/
inductive Node where
  | scalar (value : Str)
  | obj (children : List (Str × Node))

/-- A `$ref` wrapper object (the `Reference` pydantic model): a value
holding the pointer string in its `ref` attribute. -/
structure Reference where
  ref : Str
deriving DecidableEq, Repr

/-- Builds `Reference.parse_obj({"$ref": f"#{path}"})`: the body of
`AsyncAPIDoc.make_ref` (docs.py lines 205-206). -/
def make_ref (path : Str) : Reference := ⟨'#' :: path⟩

/-- The two exceptions `resolve_ref` can raise: `unsupported` for a
pointer that does not start with `#/` (malformed reference), `broken`
when a path segment is absent (`getattr` raising on a missing
attribute/key). -/
inductive RefErr where
  | unsupported
  | broken
deriving DecidableEq, Repr

/-- Attribute/key lookup of one path segment on a node (the
`getattr(current, p)` step). -/
def pyGetattr (n : Node) (k : Str) : Option Node :=
  match n with
  | .scalar _ => none
  | .obj cs => alookup cs k

/-- The resolution loop of `resolve_ref`: follow each path segment from
the current node, failing with `broken` at the first absent segment. -/
def walk (n : Node) : List Str → Except RefErr Node
  | [] => .ok n
  | p :: ps =>
      match pyGetattr n p with
      | none => .error .broken
      | some c => walk c ps

/-- The string-pointer branch of `resolve_ref`: reject pointers not
starting with `#/`, then split the rest on `/` and walk. -/
def resolveStr (doc : Node) (s : Str) : Except RefErr Node :=
  if s.take 2 = '#' :: '/' :: [] then walk doc (splitSlash (s.drop 2))
  else .error .unsupported

/-- The argument of `resolve_ref`: a `Reference` value (has a `ref`
attribute), a raw pointer string, or an already-resolved node (any
other object, passed through unchanged). -/
inductive RefOrNode where
  | byref (r : Reference)
  | bystr (s : Str)
  | bynode (n : Node)

/-- Body of `AsyncAPIDoc.resolve_ref` (docs.py lines 189-203): extract
the pointer from a `Reference` or a string, pass anything else through,
check the `#/` prefix, split the path and walk the document tree. -/
def resolve_ref (doc : Node) : RefOrNode → Except RefErr Node
  | .byref r => resolveStr doc r.ref
  | .bystr s => resolveStr doc s
  | .bynode n => .ok n

/-!
The type rewriter (source: `rewrite_type`, `rebuild_container`,
`peewee_uuid_ref` and the two caches, docs.py lines 50-143).

Python type descriptors are modelled by the inductive family
`Ty`/`Tys`/`Fields`: primitives and other opaque leaves, `type(None)`,
the `Ellipsis` marker of variadic tuples, Peewee model classes (the
identifier-capability record types), dataclasses, the recognized generic
containers (`list`/`set`/`dict`/`tuple`), unions, generics with an
unrecognized origin, and the two kinds of runtime-created classes:
pydantic models made by `create_model` and `PeeweeUUIDRef` classes.  A
runtime-created class carries a numeric identity tag `tid`: CPython
creates a fresh class object on every call, so two calls with equal
arguments yield *distinct* types; the rewriter's caches exist precisely
to prevent that.  A fresh-identity counter in `St` models the allocation
of new class objects.
-/

mutual
/-- A Python type descriptor, as consumed by `rewrite_type`. -/
inductive Ty where
  | prim (name : Str)
  | noneType
  | ellipsis
  | peeweeModel (name : Str) (pk : Str)
  | dataclass (name : Str) (fields : Fields)
  | listTy (a : Ty)
  | setTy (a : Ty)
  | dictTy (k : Ty) (v : Ty)
  | tupleTy (args : Tys)
  | unionTy (args : Tys)
  | generic (origin : Str) (args : Tys)
  | pydmodel (tid : Nat) (name : Str) (fields : Fields)
  | uuidRef (tid : Nat) (name : Str)
deriving DecidableEq, Repr

/-- A list of type arguments of a generic. -/
inductive Tys where
  | nil
  | cons (hd : Ty) (tl : Tys)
deriving DecidableEq, Repr

/-- An ordered association of field names to types (a `fields` dict of
`create_model`, the declared fields of a dataclass, or a
`get_type_hints` result). -/
inductive Fields where
  | nil
  | cons (fname : Str) (fty : Ty) (tl : Fields)
deriving DecidableEq, Repr
end

/-- Dict lookup in a `Fields` association (first match). -/
def Fields.lookup : Fields → Str → Option Ty
  | .nil, _ => none
  | .cons n t rest, key => if n = key then some t else Fields.lookup rest key

/-- The key list of a `Fields` association (`list(d.keys())`). -/
def fieldNames : Fields → List Str
  | .nil => []
  | .cons n _ rest => n :: fieldNames rest

/-- Concatenation of `Fields` associations. -/
def Fields.append : Fields → Fields → Fields
  | .nil, gs => gs
  | .cons n t rest, gs => .cons n t (Fields.append rest gs)

/-- The process-wide mutable state of the rewriter: the fresh-identity
counter for runtime-created classes, the dataclass cache `_dc_cache`
(docs.py line 94) and the Peewee reference cache `_ref_cache` (docs.py
line 50), both keyed by the source type. -/
structure St where
  fresh : Nat
  dcCache : List (Ty × Ty)
  refCache : List (Ty × Ty)
deriving DecidableEq, Repr

/-- Pydantic's `create_model(name, **fields)`: creates a fresh model
class with the given name and fields (fresh identity tag). -/
def create_model (st : St) (name : Str) (fields : Fields) : St × Ty :=
  ({ st with fresh := st.fresh + 1 }, Ty.pydmodel st.fresh name fields)

/-- Body of `peewee_uuid_ref` (docs.py lines 52-91): return the cached
reference type for this model class if present, otherwise create a fresh
`<Name>UUIDRef` class, cache it under the model class, and return it.
(The non-Peewee early return is unreachable from `rewrite_type`, which
only calls this on Peewee model classes.) -/
def peewee_uuid_ref (s : St) (n pk : Str) : St × Ty :=
  let key := Ty.peeweeModel n pk
  match alookup s.refCache key with
  | some v => (s, v)
  | none =>
      let R := Ty.uuidRef s.fresh (n ++ sUUIDRef)
      ({ s with fresh := s.fresh + 1, refCache := (key, R) :: s.refCache }, R)

mutual
/-- Body of `rewrite_type` (docs.py lines 111-143), with
`rebuild_container` (lines 96-109) inlined at the container cases:

* a Peewee model class goes through `peewee_uuid_ref`;
* a dataclass is looked up in `_dc_cache`; on a miss its fields are
  recursively rewritten, a fresh `<Name>Schema` pydantic model is
  created and cached;
* for a generic type the arguments are rewritten first (caches are
  updated by this even when the result is discarded); `list`, `set`,
  `dict` and `tuple` are rebuilt with the rewritten arguments
  (`Tuple[x, ...]` keeps its trailing `Ellipsis` argument, which
  rewrites to itself, so both tuple forms rebuild the same way), a
  union is rebuilt as a union, and a generic with any other origin
  falls through to `return tp` — the input, unchanged;
* everything with no origin (primitives, `type(None)`, `Ellipsis`,
  already-created model classes) is returned unchanged.

The model is a total function: `rewrite_type` never raises on
well-formed descriptors. -/
def rewrite_type (s : St) : Ty → St × Ty
  | .peeweeModel n pk => peewee_uuid_ref s n pk
  | .dataclass n fs =>
      match alookup s.dcCache (.dataclass n fs) with
      | some v => (s, v)
      | none =>
          let p := rewriteFields s fs
          let M := Ty.pydmodel p.1.fresh (n ++ sSchema) p.2
          ({ p.1 with fresh := p.1.fresh + 1,
                      dcCache := (Ty.dataclass n fs, M) :: p.1.dcCache }, M)
  | .listTy a => let p := rewrite_type s a; (p.1, .listTy p.2)
  | .setTy a => let p := rewrite_type s a; (p.1, .setTy p.2)
  | .dictTy k v =>
      let p := rewrite_type s k
      let q := rewrite_type p.1 v
      (q.1, .dictTy p.2 q.2)
  | .tupleTy as => let p := rewriteList s as; (p.1, .tupleTy p.2)
  | .unionTy as => let p := rewriteList s as; (p.1, .unionTy p.2)
  | .generic o as => let p := rewriteList s as; (p.1, .generic o as)
  | .prim n => (s, .prim n)
  | .noneType => (s, .noneType)
  | .ellipsis => (s, .ellipsis)
  | .pydmodel i n fs => (s, .pydmodel i n fs)
  | .uuidRef i n => (s, .uuidRef i n)

/-- Rewriting of a dataclass's field types, threading the state in
declaration order (the loop over `dataclasses.fields(tp)`). -/
def rewriteFields (s : St) : Fields → St × Fields
  | .nil => (s, .nil)
  | .cons n t rest =>
      let p := rewrite_type s t
      let q := rewriteFields p.1 rest
      (q.1, .cons n p.2 q.2)

/-- Rewriting of generic type arguments left to right (the
`tuple(rewrite_type(a) for a in get_args(tp))` comprehension). -/
def rewriteList (s : St) : Tys → St × Tys
  | .nil => (s, .nil)
  | .cons t rest =>
      let p := rewrite_type s t
      let q := rewriteList p.1 rest
      (q.1, .cons p.2 q.2)
end

/-!
Identity erasure and ideal shapes.  `strip` erases the runtime identity
tags of created classes (two classes with equal `strip` images are
indistinguishable in the serialized document: same name, same fields).
`shapeOf` is the document-facing shape the rewriter is supposed to
produce for a source type; the determinism theorem below states that
`rewrite_type` realizes `shapeOf` from any well-formed cache state.
-/

mutual
/-- Erase the identity tags of runtime-created classes, recursively. -/
def strip : Ty → Ty
  | .prim n => .prim n
  | .noneType => .noneType
  | .ellipsis => .ellipsis
  | .peeweeModel n pk => .peeweeModel n pk
  | .dataclass n fs => .dataclass n (stripFields fs)
  | .listTy a => .listTy (strip a)
  | .setTy a => .setTy (strip a)
  | .dictTy k v => .dictTy (strip k) (strip v)
  | .tupleTy as => .tupleTy (stripList as)
  | .unionTy as => .unionTy (stripList as)
  | .generic o as => .generic o (stripList as)
  | .pydmodel _ n fs => .pydmodel 0 n (stripFields fs)
  | .uuidRef _ n => .uuidRef 0 n

/-- Identity erasure on field associations. -/
def stripFields : Fields → Fields
  | .nil => .nil
  | .cons n t rest => .cons n (strip t) (stripFields rest)

/-- Identity erasure on argument lists. -/
def stripList : Tys → Tys
  | .nil => .nil
  | .cons t rest => .cons (strip t) (stripList rest)
end

mutual
/-- The document-facing shape `rewrite_type` produces for a source
type: a Peewee model class becomes a `<Name>UUIDRef` string/uuid leaf, a
dataclass becomes a `<Name>Schema` model with recursively reshaped
fields, recognized containers and unions are mapped through, an
unrecognized generic is returned as is, and leaves (including already
created classes) are unchanged — all up to identity tags. -/
def shapeOf : Ty → Ty
  | .prim n => .prim n
  | .noneType => .noneType
  | .ellipsis => .ellipsis
  | .peeweeModel n _ => .uuidRef 0 (n ++ sUUIDRef)
  | .dataclass n fs => .pydmodel 0 (n ++ sSchema) (shapeFields fs)
  | .listTy a => .listTy (shapeOf a)
  | .setTy a => .setTy (shapeOf a)
  | .dictTy k v => .dictTy (shapeOf k) (shapeOf v)
  | .tupleTy as => .tupleTy (shapeList as)
  | .unionTy as => .unionTy (shapeList as)
  | .generic o as => .generic o (stripList as)
  | .pydmodel _ n fs => .pydmodel 0 n (stripFields fs)
  | .uuidRef _ n => .uuidRef 0 n

/-- Ideal shapes of a field association. -/
def shapeFields : Fields → Fields
  | .nil => .nil
  | .cons n t rest => .cons n (shapeOf t) (shapeFields rest)

/-- Ideal shapes of an argument list. -/
def shapeList : Tys → Tys
  | .nil => .nil
  | .cons t rest => .cons (shapeOf t) (shapeList rest)
end

/-- Cache-extension order on rewriter states: every cached binding of
the smaller state is still found (with the same value) in the larger
state.  `rewrite_type` only ever adds bindings for keys that missed, so
every run is monotone for this order. -/
def StLE (s t : St) : Prop :=
  (∀ k v, alookup s.dcCache k = some v → alookup t.dcCache k = some v) ∧
  (∀ k v, alookup s.refCache k = some v → alookup t.refCache k = some v)

theorem StLE_refl (s : St) : StLE s s := ⟨fun _ _ h => h, fun _ _ h => h⟩

theorem StLE_trans {a b c : St} (h1 : StLE a b) (h2 : StLE b c) : StLE a c :=
  ⟨fun k v h => h2.1 k v (h1.1 k v h), fun k v h => h2.2 k v (h1.2 k v h)⟩

/-- Prepending a binding for a key that was absent keeps every present
binding findable. -/
theorem alookup_cons_keep {κ α : Type} [DecidableEq κ] (c : List (κ × α)) (key k : κ)
    (M v : α) (hmiss : alookup c key = none) (h : alookup c k = some v) :
    alookup ((key, M) :: c) k = some v := by
  have hk : ¬ key = k := by
    intro hh; rw [hh] at hmiss; rw [hmiss] at h; cases h
  simp [alookup, hk, h]

mutual
/-- Monotonicity: a rewrite only grows the caches. -/
theorem rw_mono : ∀ (s : St) (T : Ty), StLE s (rewrite_type s T).1
  | s, .peeweeModel n pk => by
      simp only [rewrite_type, peewee_uuid_ref]
      cases hm : alookup s.refCache (Ty.peeweeModel n pk) with
      | some v => exact StLE_refl s
      | none =>
          refine ⟨fun k v h => h, fun k v h => ?_⟩
          exact alookup_cons_keep _ _ _ _ _ hm h
  | s, .dataclass n fs => by
      simp only [rewrite_type]
      cases hm : alookup s.dcCache (Ty.dataclass n fs) with
      | some v => exact StLE_refl s
      | none =>
          refine ⟨fun k v h => ?_, fun k v h => (rwFields_mono s fs).2 k v h⟩
          have hk : ¬ Ty.dataclass n fs = k := by
            intro hh; rw [hh] at hm; rw [hm] at h; cases h
          have h1 := (rwFields_mono s fs).1 k v h
          simp [alookup, hk, h1]
  | s, .listTy a => by simp only [rewrite_type]; exact rw_mono s a
  | s, .setTy a => by simp only [rewrite_type]; exact rw_mono s a
  | s, .dictTy k v => by
      simp only [rewrite_type]
      exact StLE_trans (rw_mono s k) (rw_mono (rewrite_type s k).1 v)
  | s, .tupleTy as => by simp only [rewrite_type]; exact rwList_mono s as
  | s, .unionTy as => by simp only [rewrite_type]; exact rwList_mono s as
  | s, .generic o as => by simp only [rewrite_type]; exact rwList_mono s as
  | s, .prim n => StLE_refl s
  | s, .noneType => StLE_refl s
  | s, .ellipsis => StLE_refl s
  | s, .pydmodel i n fs => StLE_refl s
  | s, .uuidRef i n => StLE_refl s

/-- Monotonicity for argument lists. -/
theorem rwList_mono : ∀ (s : St) (as : Tys), StLE s (rewriteList s as).1
  | s, .nil => StLE_refl s
  | s, .cons t rest => by
      simp only [rewriteList]
      exact StLE_trans (rw_mono s t) (rwList_mono (rewrite_type s t).1 rest)

/-- Monotonicity for field associations. -/
theorem rwFields_mono : ∀ (s : St) (fs : Fields), StLE s (rewriteFields s fs).1
  | s, .nil => StLE_refl s
  | s, .cons n t rest => by
      simp only [rewriteFields]
      exact StLE_trans (rw_mono s t) (rwFields_mono (rewrite_type s t).1 rest)
end

mutual
/-- Stability: once a type has been rewritten, rewriting it again from
any state that extends the resulting caches returns the identical
result and leaves the state untouched. -/
theorem rw_stable : ∀ (s : St) (T : Ty) (t : St),
    StLE (rewrite_type s T).1 t → rewrite_type t T = (t, (rewrite_type s T).2)
  | s, .peeweeModel n pk, t => by
      simp only [rewrite_type, peewee_uuid_ref]
      cases hm : alookup s.refCache (Ty.peeweeModel n pk) with
      | some v =>
          intro hle
          have : alookup t.refCache (Ty.peeweeModel n pk) = some v := hle.2 _ _ hm
          simp [this]
      | none =>
          intro hle
          have hself : alookup ((Ty.peeweeModel n pk,
              Ty.uuidRef s.fresh (n ++ sUUIDRef)) :: s.refCache) (Ty.peeweeModel n pk)
              = some (Ty.uuidRef s.fresh (n ++ sUUIDRef)) := by simp [alookup]
          have : alookup t.refCache (Ty.peeweeModel n pk)
              = some (Ty.uuidRef s.fresh (n ++ sUUIDRef)) := hle.2 _ _ hself
          simp [this]
  | s, .dataclass n fs, t => by
      simp only [rewrite_type]
      cases hm : alookup s.dcCache (Ty.dataclass n fs) with
      | some v =>
          intro hle
          have : alookup t.dcCache (Ty.dataclass n fs) = some v := hle.1 _ _ hm
          simp [this]
      | none =>
          intro hle
          have hself : alookup ((Ty.dataclass n fs,
              Ty.pydmodel (rewriteFields s fs).1.fresh (n ++ sSchema) (rewriteFields s fs).2)
                :: (rewriteFields s fs).1.dcCache) (Ty.dataclass n fs)
              = some (Ty.pydmodel (rewriteFields s fs).1.fresh (n ++ sSchema)
                  (rewriteFields s fs).2) := by simp [alookup]
          have := hle.1 _ _ hself
          simp [this]
  | s, .listTy a, t => by
      simp only [rewrite_type]
      intro hle
      rw [rw_stable s a t hle]
  | s, .setTy a, t => by
      simp only [rewrite_type]
      intro hle
      rw [rw_stable s a t hle]
  | s, .dictTy k v, t => by
      simp only [rewrite_type]
      intro hle
      have hk : StLE (rewrite_type s k).1 t :=
        StLE_trans (rw_mono (rewrite_type s k).1 v) hle
      rw [rw_stable s k t hk, rw_stable (rewrite_type s k).1 v t hle]
  | s, .tupleTy as, t => by
      simp only [rewrite_type]
      intro hle
      rw [rwList_stable s as t hle]
  | s, .unionTy as, t => by
      simp only [rewrite_type]
      intro hle
      rw [rwList_stable s as t hle]
  | s, .generic o as, t => by
      simp only [rewrite_type]
      intro hle
      rw [rwList_stable s as t hle]
  | s, .prim n, t => fun _ => rfl
  | s, .noneType, t => fun _ => rfl
  | s, .ellipsis, t => fun _ => rfl
  | s, .pydmodel i n fs, t => fun _ => rfl
  | s, .uuidRef i n, t => fun _ => rfl

/-- Stability for argument lists. -/
theorem rwList_stable : ∀ (s : St) (as : Tys) (t : St),
    StLE (rewriteList s as).1 t → rewriteList t as = (t, (rewriteList s as).2)
  | s, .nil, t => fun _ => rfl
  | s, .cons a rest, t => by
      simp only [rewriteList]
      intro hle
      have ha : StLE (rewrite_type s a).1 t :=
        StLE_trans (rwList_mono (rewrite_type s a).1 rest) hle
      rw [rw_stable s a t ha, rwList_stable (rewrite_type s a).1 rest t hle]

/-- Stability for field associations. -/
theorem rwFields_stable : ∀ (s : St) (fs : Fields) (t : St),
    StLE (rewriteFields s fs).1 t → rewriteFields t fs = (t, (rewriteFields s fs).2)
  | s, .nil, t => fun _ => rfl
  | s, .cons n a rest, t => by
      simp only [rewriteFields]
      intro hle
      have ha : StLE (rewrite_type s a).1 t :=
        StLE_trans (rwFields_mono (rewrite_type s a).1 rest) hle
      rw [rw_stable s a t ha, rwFields_stable (rewrite_type s a).1 rest t hle]
end

/-- Idempotence of a rewrite run: rewriting the same source type again,
right after a first rewrite, returns the identical schema type and does
not change the caches.  This is what the two identity-keyed caches are
for: without them `create_model` / the class statement would mint a
distinct class on the second call. -/
theorem rw_idem (s : St) (T : Ty) :
    rewrite_type (rewrite_type s T).1 T = ((rewrite_type s T).1, (rewrite_type s T).2) :=
  rw_stable s T (rewrite_type s T).1 (StLE_refl _)

/-- Well-formedness of a rewriter state: every cached value has the
document-facing shape of its key.  The empty caches are well-formed and
every rewrite preserves well-formedness (shown below), so every state
arising in a run is well-formed. -/
def WF (s : St) : Prop :=
  (∀ k v, alookup s.dcCache k = some v → strip v = shapeOf k) ∧
  (∀ k v, alookup s.refCache k = some v → strip v = shapeOf k)

/-- The initial rewriter state: fresh counter at zero, both caches empty
(their module-level initializers in docs.py). -/
def St.init : St := ⟨0, [], []⟩

theorem WF_init : WF St.init := by
  refine ⟨fun k v h => ?_, fun k v h => ?_⟩ <;> simp [St.init, alookup] at h

mutual
/-- Determinism: from any well-formed state, the rewritten type's
document-facing structure (its `strip` image) is exactly `shapeOf` of
the source type — a function of the source type's structure alone — and
the resulting state is again well-formed. -/
theorem rw_det : ∀ (s : St) (T : Ty), WF s →
    strip (rewrite_type s T).2 = shapeOf T ∧ WF (rewrite_type s T).1
  | s, .peeweeModel n pk, hWF => by
      simp only [rewrite_type, peewee_uuid_ref]
      cases hm : alookup s.refCache (Ty.peeweeModel n pk) with
      | some v => exact ⟨hWF.2 _ _ hm, hWF⟩
      | none =>
          refine ⟨rfl, hWF.1, fun k v h => ?_⟩
          by_cases hk : Ty.peeweeModel n pk = k
          · subst hk
            simp [alookup] at h
            subst h
            rfl
          · simp [alookup, hk] at h
            exact hWF.2 _ _ h
  | s, .dataclass n fs, hWF => by
      simp only [rewrite_type]
      cases hm : alookup s.dcCache (Ty.dataclass n fs) with
      | some v => exact ⟨hWF.1 _ _ hm, hWF⟩
      | none =>
          obtain ⟨hsh, hWF1⟩ := rwFields_det s fs hWF
          refine ⟨?_, fun k v h => ?_, hWF1.2⟩
          · simp only [strip, shapeOf, hsh]
          · by_cases hk : Ty.dataclass n fs = k
            · subst hk
              simp [alookup] at h
              subst h
              simp only [strip, shapeOf, hsh]
            · simp [alookup, hk] at h
              exact hWF1.1 _ _ h
  | s, .listTy a, hWF => by
      simp only [rewrite_type]
      obtain ⟨h1, h2⟩ := rw_det s a hWF
      exact ⟨by simp only [strip, shapeOf, h1], h2⟩
  | s, .setTy a, hWF => by
      simp only [rewrite_type]
      obtain ⟨h1, h2⟩ := rw_det s a hWF
      exact ⟨by simp only [strip, shapeOf, h1], h2⟩
  | s, .dictTy k v, hWF => by
      simp only [rewrite_type]
      obtain ⟨h1, h2⟩ := rw_det s k hWF
      obtain ⟨h3, h4⟩ := rw_det (rewrite_type s k).1 v h2
      exact ⟨by simp only [strip, shapeOf, h1, h3], h4⟩
  | s, .tupleTy as, hWF => by
      simp only [rewrite_type]
      obtain ⟨h1, h2⟩ := rwList_det s as hWF
      exact ⟨by simp only [strip, shapeOf, h1], h2⟩
  | s, .unionTy as, hWF => by
      simp only [rewrite_type]
      obtain ⟨h1, h2⟩ := rwList_det s as hWF
      exact ⟨by simp only [strip, shapeOf, h1], h2⟩
  | s, .generic o as, hWF => by
      simp only [rewrite_type]
      exact ⟨rfl, (rwList_det s as hWF).2⟩
  | s, .prim n, hWF => ⟨rfl, hWF⟩
  | s, .noneType, hWF => ⟨rfl, hWF⟩
  | s, .ellipsis, hWF => ⟨rfl, hWF⟩
  | s, .pydmodel i n fs, hWF => ⟨rfl, hWF⟩
  | s, .uuidRef i n, hWF => ⟨rfl, hWF⟩

/-- Determinism for argument lists. -/
theorem rwList_det : ∀ (s : St) (as : Tys), WF s →
    stripList (rewriteList s as).2 = shapeList as ∧ WF (rewriteList s as).1
  | s, .nil, hWF => ⟨rfl, hWF⟩
  | s, .cons a rest, hWF => by
      simp only [rewriteList]
      obtain ⟨h1, h2⟩ := rw_det s a hWF
      obtain ⟨h3, h4⟩ := rwList_det (rewrite_type s a).1 rest h2
      exact ⟨by simp only [stripList, shapeList, h1, h3], h4⟩

/-- Determinism for field associations. -/
theorem rwFields_det : ∀ (s : St) (fs : Fields), WF s →
    stripFields (rewriteFields s fs).2 = shapeFields fs ∧ WF (rewriteFields s fs).1
  | s, .nil, hWF => ⟨rfl, hWF⟩
  | s, .cons n a rest, hWF => by
      simp only [rewriteFields]
      obtain ⟨h1, h2⟩ := rw_det s a hWF
      obtain ⟨h3, h4⟩ := rwFields_det (rewrite_type s a).1 rest h2
      exact ⟨by simp only [stripFields, shapeFields, h1, h3], h4⟩
end

/-!
The document model.  The node classes used by the builder (`Tag`,
`Info`, `Message`, `OperationReply`, `Operation`, `ChannelItem`,
`Components`, and the root model) are pydantic models; `Info`,
`ChannelItem`, `Operation`, `OperationReply` are in the sources under
verification, the remaining ones are modelled from the spec's data
model (§3).  Fields that `docs.py` never writes or reads (bindings,
traits, security, external docs, parameters) are omitted; `parse_obj`
of the literal dicts built by `docs.py` is modelled as direct structure
construction, with absent keys taking the models' `None` defaults.
Components-table values for schemas are the registered model classes
themselves: `model.schema()` rendering and `add_ref_prepath` (whose
source file is not under verification) only re-root the `$ref` strings
inside the rendered JSON schema, which no claim observes, so both are
modelled as the identity on the model descriptor.
-/

/-- A tag object (name plus optional description). -/
structure Tag where
  name : Str
  description : Option Str := none
deriving DecidableEq, Repr

/-- The `info` block of the document (the fields `docs.py` touches). -/
structure Info where
  title : Str
  version : Str
  description : Str
  tags : List Tag
deriving DecidableEq, Repr

/-- A message node: name, optional title/summary/description, optional
payload pointer into the component schemas, optional tag list. -/
structure Message where
  name : Str
  title : Option Str := none
  summary : Option Str := none
  description : Option Str := none
  payload : Option Reference := none
  tags : Option (List Tag) := none
deriving DecidableEq, Repr

/-- The reply part of an operation (source: `OperationReply` model):
a channel pointer and the list of reply-message pointers. -/
structure OperationReply where
  channel : Option Reference := none
  messages : Option (List Reference) := none
deriving DecidableEq, Repr

/-- An operation node (source: `Operation` model; the fields
`docs.py` populates). -/
structure Operation where
  action : Str
  channel : Reference
  title : Option Str := none
  summary : Option Str := none
  messages : Option (List Reference) := none
  reply : Option OperationReply := none
  tags : Option (List Tag) := none
deriving DecidableEq, Repr

/-- A channel node (source: `ChannelItem` model).  Its `messages` table
maps local message ids to `Message` objects (`docs.py` stores `Message`
values there at runtime). -/
structure ChannelItem where
  address : Option Str := none
  title : Option Str := none
  summary : Option Str := none
  description : Option Str := none
  servers : Option (List Reference) := none
  messages : Option (List (Str × Message)) := none
deriving DecidableEq, Repr

/-- The reusable component tables the builder writes: schemas (storing
the registered schema/model descriptors) and messages. -/
structure Components where
  schemas : List (Str × Ty)
  messages : List (Str × Message)
deriving DecidableEq, Repr

/-- The document root (`AsyncAPIDoc`): info, servers (name to host,
enough for the claims), channels, global operations table, components. -/
structure AsyncAPIDoc where
  info : Info
  servers : List (Str × Str)
  channels : List (Str × ChannelItem)
  operations : List (Str × Operation)
  components : Components
deriving DecidableEq, Repr

/-- The exceptions the builder operations can raise. -/
inductive BuildErr where
  /-- The read `self.channels[channel]` raising `KeyError` for an unknown channel. -/
  | keyError
  /-- The raise of a duplicate-message-id exception in a channel. -/
  | duplicateMessage
  /-- The raise of a duplicate-channel-id exception. -/
  | duplicateChannel
  /-- An `AttributeError` from `model.__name__` on a value without that attribute
  (e.g. the `"NotProvided"` sentinel string). -/
  | attrError
  /-- An `UnboundLocalError` from reading `ack_title`, which is only ever
  assigned inside the handler-return synthesis branch. -/
  | unboundAckTitle
deriving DecidableEq, Repr

/-- Python truthiness test `not x` for an optional string (false for
`None` and for the empty string). -/
def falsyOS : Option Str → Bool
  | none => true
  | some s => s.isEmpty

/-- The idiom `x = d if not x else x`: keep a truthy string, otherwise
use the default. -/
def orDefault (x : Option Str) (d : Str) : Str :=
  match x with
  | none => d
  | some s => if s.isEmpty then d else s

/-- Python truthiness of an optional message table (`None` and the
empty dict are falsy). -/
def falsyMsgs : Option (List (Str × Message)) → Bool
  | none => true
  | some l => l.isEmpty

/-- The `[{"name": t} for t in tags] if tags` idiom: a truthy tag-name
list becomes a list of name-only tags, otherwise the field is absent. -/
def pyTags : Option (List Str) → Option (List Tag)
  | none => none
  | some l => if l.isEmpty then none else some (l.map fun t => { name := t })

/-- A value passed for `ack_data_model` / `payload_model`: `None`, the
`"NotProvided"` sentinel string, or an actual model class. -/
inductive MaybeModel where
  | mnone
  | notProvided
  | model (m : Ty)
deriving DecidableEq, Repr

/-- Python truthiness `not x` for a `MaybeModel` (only `None` is falsy;
the sentinel is a nonempty string, hence truthy). -/
def falsyMM : MaybeModel → Bool
  | .mnone => true
  | _ => false

/-- Python `x.__name__`: present on classes (including created model
classes), absent on generic aliases and other non-class values, where
reading it raises `AttributeError`. -/
def dunderName : Ty → Option Str
  | .prim n => some n
  | .noneType => some ("NoneType").data
  | .peeweeModel n _ => some n
  | .dataclass n _ => some n
  | .pydmodel _ n _ => some n
  | .uuidRef _ n => some n
  | _ => none

/-- The `model.schema()` rendering of a registered model, at the
granularity the claims observe: the model descriptor itself (name and
typed fields). -/
def modelSchema (m : Ty) : Ty := m

/-- Modelled from the spec: `add_ref_prepath` (its source file,
`asyncapi/utils.py`, is not under verification) rewrites the internal
`$ref` pointer paths inside a rendered schema so they are rooted at the
schema's final components address.  The rendering is modelled by the
schema descriptor itself, which holds no pointer strings, so pointer
re-rooting is the identity on it. -/
def add_ref_prepath (schema : Ty) (pre : Str) : Ty :=
  let _ := pre
  schema

/-- A handler function as seen by `add_event`: its `__name__`, its
`__doc__`, and its `get_type_hints` result in declaration order (the
declared return type, if any, is the last entry, under the key
`"return"`). -/
structure Handler where
  name : Str
  doc : Option Str := none
  hints : Fields := .nil
deriving DecidableEq, Repr

/-- The `for param_name in param_names: fields[param_name] = (rewrite_type(
type_hints[param_name]), Field())` loop: look each name up in the hints
dict and rewrite its type, threading the rewriter state. -/
def buildFields (st : St) (hints : Fields) : List Str → St × Fields
  | [] => (st, .nil)
  | p :: ps =>
      match hints.lookup p with
      | none => buildFields st hints ps
      | some t =>
          let q := rewrite_type st t
          let r := buildFields q.1 hints ps
          (r.1, .cons p q.2 r.2)

/-- The local variables produced by the handler-introspection block of
`add_event`: the rewriter state, the (possibly defaulted) name and
description, the payload and ack models, and `ack_title` — `none` for
"never assigned" (reading it then raises `UnboundLocalError`). -/
structure HRes where
  st : St
  name : Option Str
  description : Option Str
  payload_model : MaybeModel
  ack_data_model : MaybeModel
  ack_title : Option Str
deriving DecidableEq, Repr

/-- The handler-introspection block of `add_event` (docs.py lines
275-301): default the name and description from the handler, build the
payload fields from every type hint *except the last one* (the code
assumes the last hint is the return type), synthesize the payload model
when none was given, and, when a `"return"` hint exists, no ack model
was given and the return type is not `type(None)`, synthesize the
`<TitleizedId>Ack` model with `success`/`error`/`data` fields and
assign `ack_title`.  The `try/except: print` wrappers are not modelled:
`create_model` and `rewrite_type` are total here, so the exception
branches cannot fire. -/
def introspect_handler (st : St) (id : Str) (name description : Option Str)
    (payload_model ack_data_model : MaybeModel) (h : Handler) : HRes :=
  let name := if falsyOS name then some h.name else name
  let description := if falsyOS description then h.doc else description
  let type_hints := h.hints
  let param_names := (fieldNames type_hints).dropLast
  let bf := buildFields st type_hints param_names
  let titleId := removeUnderscores (pyTitle id)
  let pc :=
    match payload_model with
    | .mnone =>
        let cm := create_model bf.1 (titleId ++ sPayload) bf.2
        (cm.1, MaybeModel.model cm.2)
    | pm => (bf.1, pm)
  let ac :=
    match type_hints.lookup sReturn, ack_data_model with
    | some rt, .mnone =>
        if rt = Ty.noneType then (pc.1, MaybeModel.mnone, (none : Option Str))
        else
          let rw := rewrite_type pc.1 rt
          let cm := create_model rw.1 (titleId ++ sAck)
            (Fields.cons sSuccess (.prim sBool)
              (Fields.cons sError (.unionTy (Tys.cons (.prim sAny) (Tys.cons .noneType .nil)))
                (Fields.cons sData rw.2 .nil)))
          (cm.1, MaybeModel.model cm.2, some (titleId ++ sAck))
    | _, adm => (pc.1, adm, (none : Option Str))
  ⟨ac.1, name, description, pc.2, ac.2.1, ac.2.2⟩

/-- The `id = id[3:] if id.lower().startswith("on_")` normalization at
the top of `add_event`. -/
def normalize_event_id (id : Str) : Str :=
  if (pyLower id).take 3 = sOn then id.drop 3 else id

/-- Write a channel entry (`self.channels[id] = ...`, or an in-place
mutation of a channel object reached through the table). -/
def setChannel (doc : AsyncAPIDoc) (k : Str) (c : ChannelItem) : AsyncAPIDoc :=
  { doc with channels := aset doc.channels k c }

/-- Write a component schema (`self.components.schemas[name] = ...`). -/
def setSchema (doc : AsyncAPIDoc) (k : Str) (v : Ty) : AsyncAPIDoc :=
  { doc with components := { doc.components with schemas := aset doc.components.schemas k v } }

/-- Write a global operation (`self.operations[id] = ...`). -/
def setOperation (doc : AsyncAPIDoc) (k : Str) (op : Operation) : AsyncAPIDoc :=
  { doc with operations := aset doc.operations k op }

/-- The in-place mutation `channel_obj.messages[mid] = msg`: the channel
object is aliased with its entry in the channels table, so the write is
visible through the document. -/
def addChannelMessage (doc : AsyncAPIDoc) (chk mid : Str) (m : Message) : AsyncAPIDoc :=
  match alookup doc.channels chk with
  | none => doc
  | some ch => setChannel doc chk { ch with messages := some (aset (ch.messages.getD []) mid m) }

/-- The straight-line tail of `add_event` (docs.py lines 334-359),
shared by the ack and no-ack paths: build the primary `Message`, insert
it into the channel, build the `Operation` (action, channel pointer,
title, summary = event id, singleton message pointer list, optional
reply and tags) and register it under `"<channel>/<id>"`. -/
def finishEvent (st : St) (doc : AsyncAPIDoc) (channel : Str) (channel_ref : Reference)
    (id name title : Str) (summary description : Option Str) (payload : Option Reference)
    (tags : Option (List Str)) (reply : Option OperationReply) (action : Str) :
    St × AsyncAPIDoc × Option BuildErr :=
  let message : Message :=
    { name := name, title := some title, summary := summary, description := description,
      payload := payload, tags := pyTags tags }
  let doc := addChannelMessage doc channel id message
  let msg_ref := make_ref (sChannelsP ++ channel ++ sMessagesP ++ id)
  let operation : Operation :=
    { action := action, channel := channel_ref, title := some title, summary := some id,
      messages := some [msg_ref], reply := reply, tags := pyTags tags }
  (st, setOperation doc (channel ++ sSlash ++ id) operation, none)

/-- The ack-registration block of `add_event` (docs.py lines 311-332)
followed by the shared tail: a truthy `ack_data_model` has its name
read (`AttributeError` on the sentinel), its schema written into
`components.schemas`, and then the ack `Message` is built — reading
`ack_title`, which raises `UnboundLocalError` unless the synthesis
branch assigned it — inserted into the channel under `"<id>Ack"`, and
wired into an `OperationReply` carrying exactly the ack message
pointer. -/
def ackAndFinish (st : St) (doc : AsyncAPIDoc) (channel : Str) (channel_ref : Reference)
    (id name title : Str) (summary description : Option Str) (payload : Option Reference)
    (tags : Option (List Str)) (action : Str) (ack_data_model : MaybeModel)
    (ack_title : Option Str) : St × AsyncAPIDoc × Option BuildErr :=
  match ack_data_model with
  | .mnone => finishEvent st doc channel channel_ref id name title summary description
      payload tags none action
  | .notProvided => (st, doc, some .attrError)
  | .model M =>
      match dunderName M with
      | none => (st, doc, some .attrError)
      | some aname =>
          let ack := Reference.mk (sHashCompSchemasP ++ aname)
          let doc := setSchema doc aname (add_ref_prepath (modelSchema M) (sCompSchemasP ++ aname))
          match ack_title with
          | none => (st, doc, some .unboundAckTitle)
          | some atitle =>
              let ackMsg : Message :=
                { name := name ++ sUnderscoreAck, title := some atitle,
                  payload := if payload.isSome then some ack else none, tags := pyTags tags }
              let ack_id := id ++ sAck
              let doc := addChannelMessage doc channel ack_id ackMsg
              let ack_msg_ref := make_ref (sChannelsP ++ channel ++ sMessagesP ++ ack_id)
              let reply : OperationReply := { channel := some channel_ref,
                                              messages := some [ack_msg_ref] }
              finishEvent st doc channel channel_ref id name title summary description
                payload tags (some reply) action

/-- The keyword arguments of `add_event` (docs.py lines 249-262), with
the source's defaults. -/
structure EventArgs where
  channel : Str
  id : Str
  handler : Option Handler := none
  title : Option Str := none
  name : Option Str := none
  summary : Option Str := none
  description : Option Str := none
  tags : Option (List Str) := none
  ack_data_model : MaybeModel := .mnone
  payload_model : MaybeModel := .mnone
  action : Str := sReceive
deriving Repr

/-- Body of `AsyncAPIDoc.add_event` (docs.py lines 249-359): normalize
the event id, sanitize the channel id, resolve the channel (a `Message`
object stored in `self.channels` has no `ref` attribute, so
`resolve_ref` passes the looked-up `ChannelItem` through unchanged;
a missing key raises `KeyError`), initialize its `messages` dict if
falsy, raise on a duplicate message id, run handler introspection if a
handler was supplied, default `name` to the id and `title` to the name,
register a truthy payload model's schema (reading `__name__` raises on
the sentinel), then run ack registration and the shared tail.  The
returned document is the state at the moment of a raise (mutations
before the raise persist). -/
def add_event (st : St) (doc : AsyncAPIDoc) (a : EventArgs) :
    St × AsyncAPIDoc × Option BuildErr :=
  let id := normalize_event_id a.id
  let channel := sanitize_id a.channel
  match alookup doc.channels channel with
  | none => (st, doc, some .keyError)
  | some ch0 =>
      let ch1 := if falsyMsgs ch0.messages then { ch0 with messages := some [] } else ch0
      let doc := if falsyMsgs ch0.messages then setChannel doc channel ch1 else doc
      if (alookup (ch1.messages.getD []) id).isSome then (st, doc, some .duplicateMessage)
      else
        let channel_ref := make_ref (sChannelsP ++ channel)
        let hres :=
          match a.handler with
          | none => (⟨st, a.name, a.description, a.payload_model, a.ack_data_model, none⟩ : HRes)
          | some h => introspect_handler st id a.name a.description a.payload_model
              a.ack_data_model h
        let st := hres.st
        let name := orDefault hres.name id
        let title := orDefault a.title name
        match hres.payload_model with
        | .notProvided => (st, doc, some .attrError)
        | .model M =>
            match dunderName M with
            | none => (st, doc, some .attrError)
            | some pname =>
                let payload := some (Reference.mk (sHashCompSchemasP ++ pname))
                let doc := setSchema doc pname
                    (add_ref_prepath (modelSchema M) (sCompSchemasP ++ pname))
                ackAndFinish st doc channel channel_ref id name title a.summary
                  hres.description payload a.tags a.action hres.ack_data_model hres.ack_title
        | .mnone =>
            ackAndFinish st doc channel channel_ref id name title a.summary
              hres.description none a.tags a.action hres.ack_data_model hres.ack_title

/-- Body of `AsyncAPIDoc.add_channel` (docs.py lines 225-247): default
the address to the (unsanitized) id, sanitize the id, raise if the key
already exists, otherwise create the channel with defaulted title and
optional server pointers. -/
def add_channel (doc : AsyncAPIDoc) (id : Str) (address title summary description : Option Str)
    (servers : Option (List Str)) : AsyncAPIDoc × Option BuildErr :=
  let addressV := orDefault address id
  let sid := sanitize_id id
  match alookup doc.channels sid with
  | some _ => (doc, some .duplicateChannel)
  | none =>
      let ch : ChannelItem :=
        { address := some addressV,
          title := some (orDefault title (pyTitle sid)),
          summary := summary,
          description := description,
          servers :=
            match servers with
            | none => none
            | some l => if l.isEmpty then none
                else some (l.map fun s => make_ref (sServersP ++ s)),
          messages := none }
      (setChannel doc sid ch, none)

/-- The upsert loop of `add_global_tag`: update the description of the
first tag with the given name, or append a new tag at the end. -/
def upsertTag : List Tag → Str → Option Str → List Tag
  | [], n, d => [{ name := n, description := d }]
  | t :: ts, n, d =>
      if t.name = n then { name := t.name, description := d } :: ts
      else t :: upsertTag ts n d

/-- Body of `AsyncAPIDoc.add_global_tag` (docs.py lines 217-223). -/
def add_global_tag (doc : AsyncAPIDoc) (name : Str) (description : Option Str) : AsyncAPIDoc :=
  { doc with info := { doc.info with tags := upsertTag doc.info.tags name description } }

/-!
Helper lemmas about the rewriter used by the claim theorems.
-/

theorem shapeFields_names : ∀ (fs : Fields), fieldNames (shapeFields fs) = fieldNames fs
  | .nil => rfl
  | .cons n t rest => by simp [shapeFields, fieldNames, shapeFields_names rest]

theorem fieldNames_append : ∀ (fs gs : Fields),
    fieldNames (fs.append gs) = fieldNames fs ++ fieldNames gs
  | .nil, gs => rfl
  | .cons n t rest, gs => by simp [Fields.append, fieldNames, fieldNames_append rest gs]

/-- Creating a model only bumps the identity counter: the caches (hence
well-formedness) are untouched. -/
theorem create_model_WF (st : St) (n : Str) (fs : Fields) (h : WF st) :
    WF (create_model st n fs).1 := h

theorem buildFields_WF (hints : Fields) :
    ∀ (ps : List Str) (st : St), WF st → WF (buildFields st hints ps).1
  | [], _, h => h
  | p :: ps, st, h => by
      simp only [buildFields]
      cases hl : hints.lookup p with
      | none => exact buildFields_WF hints ps st h
      | some t => exact buildFields_WF hints ps _ ((rw_det st t h).2)

/-- Every entry of `fs` is found by dict lookup in `hints`. -/
def coveredBy : Fields → Fields → Prop
  | .nil, _ => True
  | .cons n t rest, hints => hints.lookup n = some t ∧ coveredBy rest hints

theorem coveredBy_weaken : ∀ (fs : Fields) (hints : Fields) (n : Str) (t : Ty),
    coveredBy fs hints → n ∉ fieldNames fs → coveredBy fs (.cons n t hints)
  | .nil, _, _, _, _, _ => trivial
  | .cons n1 t1 rest, hints, n, t, h, hn => by
      obtain ⟨h1, h2⟩ := h
      have hne : ¬ n = n1 := by
        intro hcon; exact hn (by simp [fieldNames, hcon])
      refine ⟨?_, coveredBy_weaken rest hints n t h2 (fun hm => hn (by simp [fieldNames, hm]))⟩
      simp [Fields.lookup, hne, h1]

/-- In a dict whose keys are unique, every entry of a leading block is
found by lookup on the whole dict. -/
theorem coveredBy_self_append : ∀ (params r : Fields),
    (fieldNames (params.append r)).Nodup → coveredBy params (params.append r)
  | .nil, r, _ => trivial
  | .cons n t rest, r, hnd => by
      have hfn : fieldNames ((Fields.cons n t rest).append r)
          = n :: fieldNames (rest.append r) := rfl
      rw [hfn] at hnd
      have hn : n ∉ fieldNames (rest.append r) := (List.nodup_cons.mp hnd).1
      have hnd2 : (fieldNames (rest.append r)).Nodup := (List.nodup_cons.mp hnd).2
      constructor
      · show Fields.lookup (Fields.cons n t (rest.append r)) n = some t
        simp [Fields.lookup]
      · refine coveredBy_weaken _ _ _ _ (coveredBy_self_append rest r hnd2) ?_
        intro hm
        rw [fieldNames_append] at hn
        exact hn (List.mem_append_left _ hm)

/-- When every name it processes is found with its own type, the
`fields` loop of `add_event` is exactly `rewriteFields`. -/
theorem buildFields_covered (hints : Fields) :
    ∀ (params : Fields) (st : St), coveredBy params hints →
      buildFields st hints (fieldNames params) = rewriteFields st params
  | .nil, st, _ => rfl
  | .cons n t rest, st, h => by
      obtain ⟨h1, h2⟩ := h
      simp only [fieldNames, buildFields, h1, rewriteFields]
      rw [buildFields_covered hints rest _ h2]

theorem dropLast_fieldNames_append_single (params : Fields) (n : Str) (t : Ty) :
    (fieldNames (params.append (.cons n t .nil))).dropLast = fieldNames params := by
  rw [fieldNames_append]
  simp [fieldNames]

/-!
Claim theorems.
-/

/-- C1: for every nonempty sequence of slash-free path segments,
resolving the pointer built by `make_ref` over that path navigates the
document exactly like direct segment-wise lookup (`walk`): if the path
is present it returns precisely the node located there, and if some
segment is absent it fails with the broken-reference error (`walk`
never produces the malformed-reference error).  `resolve_ref` is a pure
read in the model, so the document is not mutated. -/
theorem C1_resolve_make_ref_round_trip (doc : Node) (segs : List Str)
    (h1 : segs ≠ []) (h2 : ∀ x ∈ segs, ('/' : Char) ∉ x) :
    resolve_ref doc (.byref (make_ref ('/' :: joinSlash segs))) = walk doc segs := by
  show resolveStr doc ('#' :: '/' :: joinSlash segs) = walk doc segs
  unfold resolveStr
  have hcond : List.take 2 ('#' :: '/' :: joinSlash segs) = ['#', '/'] := rfl
  rw [if_pos hcond]
  show walk doc (splitSlash (joinSlash segs)) = walk doc segs
  rw [splitSlash_joinSlash segs h1 h2]

/-- A concrete document tree for the C1 witness. -/
def nodeW : Node :=
  .obj [( ("components").data,
          .obj [( ("schemas").data,
                  .obj [( ("Foo").data, .scalar ("foo").data)])])]

theorem C1_witness :
    ([ ("components").data, ("schemas").data, ("Foo").data ] ≠ ([] : List Str)) ∧
    resolve_ref nodeW (.byref (make_ref
        ('/' :: joinSlash [ ("components").data, ("schemas").data, ("Foo").data ])))
      = walk nodeW [ ("components").data, ("schemas").data, ("Foo").data ] ∧
    walk nodeW [ ("components").data, ("schemas").data, ("Foo").data ]
      = Except.ok (.scalar ("foo").data) :=
  ⟨by decide,
   C1_resolve_make_ref_round_trip nodeW _ (by decide) (by decide),
   by rfl⟩

/-- C5: rewriting is identity-stable across repeated calls — running
`rewrite_type` again on the same source type, from the state the first
run produced, returns the *identical* schema type (same runtime
identity) and leaves the caches untouched, thanks to the two
identity-keyed caches — and from any well-formed cache state the
document-facing structure of the result (its identity-erased image) is
`shapeOf T`, a function of the source type's structure alone. -/
theorem C5_rewrite_type_idempotent_and_deterministic :
    (∀ (s : St) (T : Ty),
        rewrite_type (rewrite_type s T).1 T = ((rewrite_type s T).1, (rewrite_type s T).2)) ∧
    (∀ (s : St) (T : Ty), WF s → strip (rewrite_type s T).2 = shapeOf T) :=
  ⟨fun s T => rw_idem s T, fun s T h => (rw_det s T h).1⟩

/-- A concrete source type for the rewriter witnesses: a dataclass with
a primitive field and a Peewee-model field inside a list. -/
def tyW : Ty :=
  Ty.dataclass ("Point").data
    (Fields.cons ("x").data (Ty.prim ("int").data)
      (Fields.cons ("owner").data (Ty.listTy (Ty.peeweeModel ("User").data ("id").data))
        Fields.nil))

theorem C5_witness :
    WF St.init ∧
    rewrite_type (rewrite_type St.init tyW).1 tyW
      = ((rewrite_type St.init tyW).1, (rewrite_type St.init tyW).2) ∧
    strip (rewrite_type St.init tyW).2 = shapeOf tyW :=
  ⟨WF_init,
   C5_rewrite_type_idempotent_and_deterministic.1 St.init tyW,
   C5_rewrite_type_idempotent_and_deterministic.2 St.init tyW WF_init⟩

/-- C6: rewriting a dataclass with declared fields `{f1: t1, ..., fn: tn}`
from any well-formed state synthesizes a schema model named
`<TypeName>Schema` whose document-facing structure has exactly one
field per declared field — the same field names, in order, and no extra
fields — each typed as the (identity-erased) rewrite of the declared
field type: `shapeFields fs` maps each `ti` to `shapeOf ti`, which by
C5 is the structure of `rewrite_type` on `ti`. -/
theorem C6_dataclass_rewrite_shape (s : St) (n : Str) (fs : Fields) (hWF : WF s) :
    strip (rewrite_type s (Ty.dataclass n fs)).2
      = Ty.pydmodel 0 (n ++ sSchema) (shapeFields fs) ∧
    shapeFields fs = stripFields (rewriteFields s fs).2 ∧
    fieldNames (shapeFields fs) = fieldNames fs :=
  ⟨(rw_det s (Ty.dataclass n fs) hWF).1,
   ((rwFields_det s fs hWF).1).symm,
   shapeFields_names fs⟩

theorem C6_witness :
    WF St.init ∧
    strip (rewrite_type St.init tyW).2
      = Ty.pydmodel 0 ( ("Point").data ++ sSchema)
          (shapeFields (Fields.cons ("x").data (Ty.prim ("int").data)
            (Fields.cons ("owner").data
              (Ty.listTy (Ty.peeweeModel ("User").data ("id").data)) Fields.nil))) ∧
    strip (rewrite_type St.init tyW).2
      = Ty.pydmodel 0 ("PointSchema").data
          (Fields.cons ("x").data (Ty.prim ("int").data)
            (Fields.cons ("owner").data
              (Ty.listTy (Ty.uuidRef 0 ("UserUUIDRef").data)) Fields.nil)) :=
  ⟨WF_init,
   (C6_dataclass_rewrite_shape St.init ("Point").data _ WF_init).1,
   by rfl⟩

/-- C7: `rewrite_type` is total over well-formed type descriptors by
construction (it is a total function in the model, mirroring the fact
that no branch of the source raises), and a generic type whose origin
is not one of `list`, `set`, `dict`, `tuple` or a union falls through
`rebuild_container` and is returned unchanged — the unrecognized
container is an opaque leaf (its arguments are still rewritten for
their cache effects, but the result is the input itself). -/
theorem C7_unrecognized_origin_returned_unchanged (s : St) (o : Str) (as : Tys) :
    (rewrite_type s (Ty.generic o as)).2 = Ty.generic o as := rfl

theorem upsertTag_filter_name (x : Str) (d : Option Str) :
    ∀ (l : List Tag), (l.filter (fun t => decide (t.name = x))).length ≤ 1 →
      (upsertTag l x d).filter (fun t => decide (t.name = x))
        = [{ name := x, description := d }] := by
  intro l
  induction l with
  | nil => intro _; simp [upsertTag]
  | cons t ts ih =>
      intro h
      by_cases ht : t.name = x
      · have hrest : ts.filter (fun t => decide (t.name = x)) = [] := by
          rw [List.filter_cons_of_pos (by simp [ht])] at h
          simp only [List.length_cons] at h
          exact List.eq_nil_of_length_eq_zero (by omega)
        simp [upsertTag, ht, List.filter_cons, hrest]
      · rw [List.filter_cons_of_neg (by simp [ht])] at h
        simp [upsertTag, ht, List.filter_cons, ih h]

theorem upsertTag_filter_other (x : Str) (d : Option Str) : ∀ (l : List Tag),
    (upsertTag l x d).filter (fun t => !decide (t.name = x))
      = l.filter (fun t => !decide (t.name = x))
  | [] => by simp [upsertTag]
  | t :: ts => by
      by_cases ht : t.name = x
      · simp [upsertTag, ht, List.filter_cons]
      · simp [upsertTag, ht, List.filter_cons, upsertTag_filter_other x d ts]

/-- C8: `add_global_tag` is an idempotent upsert keyed by tag name: on
any document whose tag list holds at most one tag named `x` (the
invariant `add_global_tag` itself maintains, and true of every document
built through the API, whose initializer starts from an empty tag
list), adding `x` with description `d1` and then again with `d2` leaves
exactly one tag named `x`, carrying description `d2`, and leaves the
tags with other names exactly as they were — no other tag is added,
removed, or altered. -/
theorem C8_add_global_tag_idempotent_upsert (doc : AsyncAPIDoc) (x : Str) (d1 d2 : Option Str)
    (h : ((doc.info.tags).filter (fun t => decide (t.name = x))).length ≤ 1) :
    ((add_global_tag (add_global_tag doc x d1) x d2).info.tags.filter
        (fun t => decide (t.name = x))) = [{ name := x, description := d2 }] ∧
    ((add_global_tag (add_global_tag doc x d1) x d2).info.tags.filter
        (fun t => !decide (t.name = x)))
      = doc.info.tags.filter (fun t => !decide (t.name = x)) := by
  have h1 := upsertTag_filter_name x d1 doc.info.tags h
  have hlen : ((upsertTag doc.info.tags x d1).filter
      (fun t => decide (t.name = x))).length ≤ 1 := by rw [h1]; simp
  constructor
  · simpa [add_global_tag] using upsertTag_filter_name x d2 (upsertTag doc.info.tags x d1) hlen
  · show ((upsertTag (upsertTag doc.info.tags x d1) x d2).filter
        (fun t => !decide (t.name = x))) = doc.info.tags.filter (fun t => !decide (t.name = x))
    rw [upsertTag_filter_other, upsertTag_filter_other]

/-- A concrete document for the builder witnesses: empty tables, one
info block. -/
def docEmpty : AsyncAPIDoc :=
  { info := { title := ("T").data, version := ("1").data, description := ("D").data, tags := [] },
    servers := [], channels := [], operations := [],
    components := { schemas := [], messages := [] } }

theorem C8_witness :
    ((docEmpty.info.tags).filter (fun t => decide (t.name = ("x").data))).length ≤ 1 ∧
    ((add_global_tag (add_global_tag docEmpty ("x").data (some ("d1").data))
        ("x").data (some ("d2").data)).info.tags.filter
          (fun t => decide (t.name = ("x").data)))
      = [{ name := ("x").data, description := some ("d2").data }] ∧
    ((add_global_tag (add_global_tag docEmpty ("x").data (some ("d1").data))
        ("x").data (some ("d2").data)).info.tags.filter
          (fun t => !decide (t.name = ("x").data)))
      = docEmpty.info.tags.filter (fun t => !decide (t.name = ("x").data)) :=
  ⟨by decide,
   (C8_add_global_tag_idempotent_upsert docEmpty ("x").data
      (some ("d1").data) (some ("d2").data) (by decide)).1,
   (C8_add_global_tag_idempotent_upsert docEmpty ("x").data
      (some ("d1").data) (some ("d2").data) (by decide)).2⟩

/-- C9: registering a channel and then registering a second channel
whose id sanitizes to the same key raises the duplicate-channel error
on the second call and returns the document of the first call
unchanged — in particular the channel created by the first call, with
its address, title, summary, description and servers, is untouched. -/
theorem C9_add_channel_duplicate (doc : AsyncAPIDoc) (id1 id2 : Str)
    (a1 t1 s1 d1 : Option Str) (v1 : Option (List Str))
    (a2 t2 s2 d2 : Option Str) (v2 : Option (List Str))
    (hsame : sanitize_id id2 = sanitize_id id1)
    (hfresh : alookup doc.channels (sanitize_id id1) = none) :
    (add_channel doc id1 a1 t1 s1 d1 v1).2 = none ∧
    add_channel (add_channel doc id1 a1 t1 s1 d1 v1).1 id2 a2 t2 s2 d2 v2
      = ((add_channel doc id1 a1 t1 s1 d1 v1).1, some BuildErr.duplicateChannel) := by
  have hok : (add_channel doc id1 a1 t1 s1 d1 v1).2 = none := by
    simp only [add_channel, hfresh]
  refine ⟨hok, ?_⟩
  set D := (add_channel doc id1 a1 t1 s1 d1 v1).1 with hD
  have hl : ∃ ch, alookup D.channels (sanitize_id id2) = some ch := by
    rw [hsame, hD]
    simp only [add_channel, hfresh, setChannel]
    exact ⟨_, alookup_aset_self _ _ _⟩
  obtain ⟨ch, hl⟩ := hl
  show add_channel D id2 a2 t2 s2 d2 v2 = (D, some BuildErr.duplicateChannel)
  simp only [add_channel, hl]

theorem C9_witness :
    sanitize_id ("ch/at").data = sanitize_id ("chat").data ∧
    alookup docEmpty.channels (sanitize_id ("chat").data) = none ∧
    (add_channel docEmpty ("chat").data none none none none none).2 = none ∧
    add_channel (add_channel docEmpty ("chat").data none none none none none).1
        ("ch/at").data none none none none none
      = ((add_channel docEmpty ("chat").data none none none none none).1,
         some BuildErr.duplicateChannel) :=
  ⟨by decide, by decide,
   (C9_add_channel_duplicate docEmpty ("chat").data ("ch/at").data
      none none none none none none none none none none (by decide) (by decide)).1,
   (C9_add_channel_duplicate docEmpty ("chat").data ("ch/at").data
      none none none none none none none none none none (by decide) (by decide)).2⟩

/-!
Small step lemmas about the document writers, used to trace `add_event`.
-/

theorem setSchema_channels (doc : AsyncAPIDoc) (k : Str) (v : Ty) :
    (setSchema doc k v).channels = doc.channels := rfl

theorem setSchema_operations (doc : AsyncAPIDoc) (k : Str) (v : Ty) :
    (setSchema doc k v).operations = doc.operations := rfl

theorem setChannel_operations (doc : AsyncAPIDoc) (k : Str) (c : ChannelItem) :
    (setChannel doc k c).operations = doc.operations := rfl

theorem setSchema_lookup_self (doc : AsyncAPIDoc) (k : Str) (v : Ty) :
    alookup (setSchema doc k v).components.schemas k = some v := by
  simp [setSchema, alookup_aset_self]

/-- Reading `payload_model.__name__` succeeds on the values this
argument may legally take without aborting the registration: `None`
(no payload registration happens) or a model class with a name.  The
`"NotProvided"` sentinel, a plain string, has no `__name__`. -/
def payloadArgOK : MaybeModel → Prop
  | .mnone => True
  | .notProvided => False
  | .model M => (dunderName M).isSome

/-- When a payload model argument is given, the introspection block
passes it through unchanged. -/
theorem introspect_payload_passthrough (st : St) (id : Str) (nm ds : Option Str)
    (adm : MaybeModel) (M : Ty) (h : Handler) :
    (introspect_handler st id nm ds (MaybeModel.model M) adm h).payload_model
      = MaybeModel.model M := rfl

/-- When no payload model is given, the introspection block synthesizes
a `<TitleizedId>Payload` pydantic model. -/
theorem introspect_payload_mnone (st : St) (id : Str) (nm ds : Option Str)
    (adm : MaybeModel) (h : Handler) :
    ∃ k fl, (introspect_handler st id nm ds MaybeModel.mnone adm h).payload_model
      = MaybeModel.model (Ty.pydmodel k (removeUnderscores (pyTitle id) ++ sPayload) fl) :=
  ⟨_, _, rfl⟩

/-- A truthy `ack_data_model` argument is passed through the
introspection block unchanged, and `ack_title` stays unassigned. -/
theorem introspect_ack_passthrough (st : St) (id : Str) (nm ds : Option Str)
    (pm : MaybeModel) (M : Ty) (h : Handler) :
    (introspect_handler st id nm ds pm (MaybeModel.model M) h).ack_data_model
        = MaybeModel.model M ∧
    (introspect_handler st id nm ds pm (MaybeModel.model M) h).ack_title = none := by
  unfold introspect_handler
  cases hr : h.hints.lookup sReturn <;> simp [hr]

/-- An explicit ack model together with an unassigned `ack_title`
registers the ack schema and then raises `UnboundLocalError` while
building the ack message dict. -/
theorem ackAndFinish_unbound (st : St) (doc : AsyncAPIDoc) (channel : Str) (cr : Reference)
    (id name title : Str) (su de : Option Str) (payload : Option Reference)
    (tags : Option (List Str)) (action : Str) (M : Ty) (aname : Str)
    (hname : dunderName M = some aname) :
    ackAndFinish st doc channel cr id name title su de payload tags action
        (MaybeModel.model M) none
      = (st, setSchema doc aname M, some BuildErr.unboundAckTitle) := by
  simp only [ackAndFinish, hname, modelSchema, add_ref_prepath]

/-- C10: a call to `add_event` that supplies an explicit ack model
class (so the ack model does not come from the handler-return synthesis
branch — with a handler present the branch is skipped because
`ack_data_model` is truthy, and without a handler it never runs) and
otherwise reaches the ack-registration step (the channel exists, the
event id is not a duplicate, and the payload argument itself does not
abort earlier) raises an exception while building the ack `Message`:
the `ack_title` local is only ever assigned inside the synthesis
branch, so reading it raises `UnboundLocalError`.  At that point the
ack schema has already been written into `components.schemas`, but no
ack message and no primary message was inserted into the channel
(whose messages table holds at most the empty-dict initialization) and
no operation was registered. -/
theorem C10_explicit_ack_raises_unbound_title (st : St) (doc : AsyncAPIDoc) (a : EventArgs)
    (M : Ty) (aname : Str) (ch0 : ChannelItem)
    (hack : a.ack_data_model = MaybeModel.model M)
    (hname : dunderName M = some aname)
    (hpm : payloadArgOK a.payload_model)
    (hch : alookup doc.channels (sanitize_id a.channel) = some ch0)
    (hdup : alookup (ch0.messages.getD []) (normalize_event_id a.id) = none) :
    (add_event st doc a).2.2 = some BuildErr.unboundAckTitle ∧
    alookup (add_event st doc a).2.1.components.schemas aname = some M ∧
    alookup (add_event st doc a).2.1.channels (sanitize_id a.channel)
      = some (if falsyMsgs ch0.messages then { ch0 with messages := some [] } else ch0) ∧
    (add_event st doc a).2.1.operations = doc.operations := by
  have hdup1 : ∀ (b : Bool),
      (alookup ((if b then ({ ch0 with messages := some [] } : ChannelItem) else ch0).messages.getD [])
        (normalize_event_id a.id)).isSome = false := by
    intro b; cases b <;> simp [alookup, hdup]
  suffices hs : ∃ st2 docP, add_event st doc a
      = (st2, setSchema docP aname M, some BuildErr.unboundAckTitle)
      ∧ docP.channels = (if falsyMsgs ch0.messages
          then setChannel doc (sanitize_id a.channel) { ch0 with messages := some [] }
          else doc).channels
      ∧ docP.operations = doc.operations by
    obtain ⟨st2, docP, heq, hchn, hops⟩ := hs
    rw [heq]
    refine ⟨rfl, setSchema_lookup_self _ _ _, ?_, hops⟩
    rw [setSchema_channels, hchn]
    cases hf : falsyMsgs ch0.messages
    · simpa using hch
    · simp [setChannel, alookup_aset_self]
  simp only [add_event, hch]
  rw [hdup1 (falsyMsgs ch0.messages)]
  simp only [Bool.false_eq_true, if_false]
  cases hh : a.handler with
  | none =>
      simp only [hack]
      cases hp : a.payload_model with
      | mnone =>
          refine ⟨_, _, ackAndFinish_unbound _ _ _ _ _ _ _ _ _ _ _ _ M aname hname, ?_, ?_⟩
          · cases falsyMsgs ch0.messages <;> rfl
          · cases falsyMsgs ch0.messages <;> rfl
      | notProvided => exact absurd hpm (by rw [hp]; exact id)
      | model Mp =>
          rw [hp] at hpm
          obtain ⟨pn, hpn⟩ := Option.isSome_iff_exists.mp hpm
          simp only [hpn]
          refine ⟨_, _, ackAndFinish_unbound _ _ _ _ _ _ _ _ _ _ _ _ M aname hname, ?_, ?_⟩
          · cases falsyMsgs ch0.messages <;> rfl
          · cases falsyMsgs ch0.messages <;> rfl
  | some h =>
      rw [hack]
      obtain ⟨hA1, hA2⟩ := introspect_ack_passthrough st (normalize_event_id a.id)
        a.name a.description a.payload_model M h
      rw [hA1, hA2]
      cases hp : a.payload_model with
      | mnone =>
          obtain ⟨k, fl, hpm2⟩ := introspect_payload_mnone st (normalize_event_id a.id)
            a.name a.description (MaybeModel.model M) h
          rw [hpm2]
          simp only [dunderName]
          refine ⟨_, _, ackAndFinish_unbound _ _ _ _ _ _ _ _ _ _ _ _ M aname hname, ?_, ?_⟩
          · cases falsyMsgs ch0.messages <;> rfl
          · cases falsyMsgs ch0.messages <;> rfl
      | notProvided => exact absurd hpm (by rw [hp]; exact id)
      | model Mp =>
          rw [introspect_payload_passthrough]
          rw [hp] at hpm
          obtain ⟨pn, hpn⟩ := Option.isSome_iff_exists.mp hpm
          simp only [hpn]
          refine ⟨_, _, ackAndFinish_unbound _ _ _ _ _ _ _ _ _ _ _ _ M aname hname, ?_, ?_⟩
          · cases falsyMsgs ch0.messages <;> rfl
          · cases falsyMsgs ch0.messages <;> rfl

/-- The document with one channel `"chat"`, as built by `add_channel`. -/
def docChat : AsyncAPIDoc := (add_channel docEmpty ("chat").data none none none none none).1

/-- The concrete arguments for the C10 witness: an explicit ack model
class, no handler. -/
def argsC10 : EventArgs :=
  { channel := ("chat").data, id := ("evt").data,
    ack_data_model := MaybeModel.model (Ty.pydmodel 7 ("MyAck").data Fields.nil) }

/-- The channel object `add_channel` created for `"chat"`. -/
def chW : ChannelItem :=
  { address := some ("chat").data, title := some ("Chat").data,
    summary := none, description := none, servers := none, messages := none }

theorem C10_witness :
    (add_event St.init docChat argsC10).2.2 = some BuildErr.unboundAckTitle ∧
    alookup (add_event St.init docChat argsC10).2.1.components.schemas ("MyAck").data
      = some (Ty.pydmodel 7 ("MyAck").data Fields.nil) ∧
    alookup (add_event St.init docChat argsC10).2.1.channels (sanitize_id argsC10.channel)
      = some (if falsyMsgs chW.messages then { chW with messages := some [] } else chW) ∧
    (add_event St.init docChat argsC10).2.1.operations = docChat.operations :=
  C10_explicit_ack_raises_unbound_title St.init docChat argsC10
    (Ty.pydmodel 7 ("MyAck").data Fields.nil) ("MyAck").data chW
    (by rfl) (by rfl) (by trivial) (by rfl) (by rfl)

theorem setOperation_channels (doc : AsyncAPIDoc) (k : Str) (op : Operation) :
    (setOperation doc k op).channels = doc.channels := rfl

theorem addChannelMessage_present (doc : AsyncAPIDoc) (chk mid : Str) (m : Message)
    (ch : ChannelItem) (hch : alookup doc.channels chk = some ch) :
    alookup (addChannelMessage doc chk mid m).channels chk
      = some { ch with messages := some (aset (ch.messages.getD []) mid m) } := by
  simp [addChannelMessage, hch, setChannel, alookup_aset_self]

/-- After the shared tail, the channel table holds the updated channel:
its messages map gains the primary message under the event id. -/
theorem finishEvent_channels (st : St) (doc : AsyncAPIDoc) (channel : Str) (cr : Reference)
    (id name title : Str) (su de : Option Str) (payload : Option Reference)
    (tags : Option (List Str)) (reply : Option OperationReply) (action : Str)
    (ch : ChannelItem) (hch : alookup doc.channels channel = some ch) :
    alookup (finishEvent st doc channel cr id name title su de payload
        tags reply action).2.1.channels channel
      = some { ch with messages := some (aset (ch.messages.getD []) id
          { name := name, title := some title, summary := su, description := de,
            payload := payload, tags := pyTags tags }) } := by
  show alookup (setOperation (addChannelMessage doc channel id _) _ _).channels channel = _
  rw [setOperation_channels]
  exact addChannelMessage_present doc channel id _ ch hch

/-- A successful run of the ack-and-tail part leaves the primary
message in the channel under the event id. -/
theorem ackAndFinish_success_present (st : St) (doc : AsyncAPIDoc) (channel : Str)
    (cr : Reference) (id name title : Str) (su de : Option Str) (payload : Option Reference)
    (tags : Option (List Str)) (action : Str) (adm : MaybeModel) (atit : Option Str)
    (ch : ChannelItem) (hch : alookup doc.channels channel = some ch)
    (hok : (ackAndFinish st doc channel cr id name title su de payload tags action
        adm atit).2.2 = none) :
    ∃ ch2 l m, alookup (ackAndFinish st doc channel cr id name title su de payload
        tags action adm atit).2.1.channels channel = some ch2
      ∧ ch2.messages = some l ∧ alookup l id = some m := by
  cases adm with
  | mnone =>
      exact ⟨_, _, _,
        finishEvent_channels st doc channel cr id name title su de payload tags none action
          ch hch,
        rfl, alookup_aset_self _ id _⟩
  | notProvided => exact absurd hok (by simp [ackAndFinish])
  | model M =>
      cases hname : dunderName M with
      | none => exact absurd hok (by simp [ackAndFinish, hname])
      | some an =>
          cases atit with
          | none => exact absurd hok (by simp [ackAndFinish, hname])
          | some t =>
              have hch2 : alookup (setSchema doc an
                  (add_ref_prepath (modelSchema M) (sCompSchemasP ++ an))).channels channel
                  = some ch := by rw [setSchema_channels]; exact hch
              have hch3 := addChannelMessage_present
                (setSchema doc an (add_ref_prepath (modelSchema M) (sCompSchemasP ++ an)))
                channel (id ++ sAck)
                { name := name ++ sUnderscoreAck, title := some t,
                  payload := if payload.isSome then some (Reference.mk (sHashCompSchemasP ++ an))
                    else none,
                  tags := pyTags tags } ch hch2
              show ∃ ch2 l m, alookup (ackAndFinish st doc channel cr id name title su de
                  payload tags action (MaybeModel.model M) (some t)).2.1.channels channel
                    = some ch2 ∧ ch2.messages = some l ∧ alookup l id = some m
              simp only [ackAndFinish, hname]
              exact ⟨_, _, _,
                finishEvent_channels _ _ channel cr id name title su de payload tags _ action
                  _ hch3,
                rfl, alookup_aset_self _ id _⟩

/-- A successful `add_event` leaves the primary message in the target
channel under the normalized event id. -/
theorem add_event_success_present (st : St) (doc : AsyncAPIDoc) (a : EventArgs)
    (ch0 : ChannelItem)
    (hch : alookup doc.channels (sanitize_id a.channel) = some ch0)
    (hok : (add_event st doc a).2.2 = none) :
    ∃ ch2 l m, alookup (add_event st doc a).2.1.channels (sanitize_id a.channel) = some ch2
      ∧ ch2.messages = some l ∧ alookup l (normalize_event_id a.id) = some m := by
  revert hok
  simp only [add_event, hch]
  cases hf : falsyMsgs ch0.messages <;> simp only [Bool.false_eq_true, if_false, if_true]
  all_goals cases hdp : (alookup _ (normalize_event_id a.id)).isSome
  case false.true => intro hok; exact absurd hok (by simp)
  case true.true => intro hok; exact absurd hok (by simp)
  all_goals simp only [Bool.false_eq_true, if_false]
  all_goals intro hok
  case false.false =>
      have hch1 : alookup doc.channels (sanitize_id a.channel) = some ch0 := hch
      revert hok
      generalize (match a.handler with
        | none => (⟨st, a.name, a.description, a.payload_model, a.ack_data_model, none⟩ : HRes)
        | some h => introspect_handler st (normalize_event_id a.id) a.name a.description
            a.payload_model a.ack_data_model h) = hres
      intro hok
      revert hok
      cases hpm : hres.payload_model with
      | notProvided =>
          intro hok
          try dsimp only at hok
          exact absurd hok (by simp)
      | mnone =>
          intro hok
          try dsimp only at hok ⊢
          exact ackAndFinish_success_present _ _ _ _ _ _ _ _ _ _ _ _ _ _ ch0 hch1 hok
      | model M =>
          intro hok
          try dsimp only at hok ⊢
          cases hdn : dunderName M with
          | none =>
              rw [hdn] at hok
              try dsimp only at hok
              exact absurd hok (by simp)
          | some pn =>
              rw [hdn] at hok
              try dsimp only at hok ⊢
              refine ackAndFinish_success_present _ _ _ _ _ _ _ _ _ _ _ _ _ _ ch0 ?_ hok
              rw [setSchema_channels]
              exact hch1
  case true.false =>
      have hch1 : alookup (setChannel doc (sanitize_id a.channel)
          { ch0 with messages := some [] }).channels (sanitize_id a.channel)
          = some { ch0 with messages := some [] } := by
        simp [setChannel, alookup_aset_self]
      revert hok
      generalize (match a.handler with
        | none => (⟨st, a.name, a.description, a.payload_model, a.ack_data_model, none⟩ : HRes)
        | some h => introspect_handler st (normalize_event_id a.id) a.name a.description
            a.payload_model a.ack_data_model h) = hres
      cases hpm : hres.payload_model with
      | notProvided =>
          intro hok
          try dsimp only at hok
          exact absurd hok (by simp)
      | mnone =>
          intro hok
          try dsimp only at hok ⊢
          exact ackAndFinish_success_present _ _ _ _ _ _ _ _ _ _ _ _ _ _ _ hch1 hok
      | model M =>
          intro hok
          try dsimp only at hok ⊢
          cases hdn : dunderName M with
          | none =>
              rw [hdn] at hok
              try dsimp only at hok
              exact absurd hok (by simp)
          | some pn =>
              rw [hdn] at hok
              try dsimp only at hok ⊢
              refine ackAndFinish_success_present _ _ _ _ _ _ _ _ _ _ _ _ _ _
                ({ ch0 with messages := some [] }) ?_ hok
              rw [setSchema_channels]
              exact hch1

/-- C4: when a first `add_event` call succeeds on a channel, a second
call with the same (sanitized) channel and an event id that normalizes
(after stripping a leading `on_`) to the same id raises the
duplicate-id error and returns the rewriter state and the document of
the first call completely unchanged: nothing registered by the first
call is altered and no partial entity is inserted by the second call
(the duplicate check fires before any write of the second call). -/
theorem C4_add_event_duplicate_leaves_document_unchanged (st : St) (doc : AsyncAPIDoc)
    (a1 a2 : EventArgs) (ch0 : ChannelItem)
    (hch : alookup doc.channels (sanitize_id a1.channel) = some ch0)
    (hc : sanitize_id a2.channel = sanitize_id a1.channel)
    (hid : normalize_event_id a2.id = normalize_event_id a1.id)
    (hok : (add_event st doc a1).2.2 = none) :
    add_event (add_event st doc a1).1 (add_event st doc a1).2.1 a2
      = ((add_event st doc a1).1, (add_event st doc a1).2.1, some BuildErr.duplicateMessage) := by
  obtain ⟨ch, l, m, hch1, hml, hmm⟩ := add_event_success_present st doc a1 ch0 hch hok
  have hne : l ≠ [] := alookup_ne_nil l _ m hmm
  have hfal : falsyMsgs ch.messages = false := by
    rw [hml]; simp [falsyMsgs, hne]
  have hgd : ch.messages.getD [] = l := by rw [hml]; rfl
  have hsome : (alookup (ch.messages.getD []) (normalize_event_id a1.id)).isSome = true := by
    rw [hgd, hmm]; rfl
  set r := add_event st doc a1 with hr
  simp only [add_event, hc, hid, hch1, hfal, hsome, Bool.false_eq_true, if_false, if_true]

/-- The concrete event arguments for the C4 witness. -/
def argsC4 : EventArgs := { channel := ("chat").data, id := ("message").data }

theorem C4_witness :
    (add_event St.init docChat argsC4).2.2 = none ∧
    add_event (add_event St.init docChat argsC4).1 (add_event St.init docChat argsC4).2.1 argsC4
      = ((add_event St.init docChat argsC4).1, (add_event St.init docChat argsC4).2.1,
         some BuildErr.duplicateMessage) :=
  ⟨by rfl,
   C4_add_event_duplicate_leaves_document_unchanged St.init docChat argsC4 argsC4 chW
     (by rfl) (by rfl) (by rfl) (by rfl)⟩

/-- A handler with two annotated parameters and no declared return
type: `get_type_hints` yields `{x: int, y: str}` and no `"return"`
entry. -/
def handlerNoReturn : Handler :=
  { name := ("fn").data, doc := none,
    hints := Fields.cons ("x").data (Ty.prim ("int").data)
      (Fields.cons ("y").data (Ty.prim ("str").data) Fields.nil) }

/-- The concrete `add_event` arguments of the C2 counterexample. -/
def argsC2 : EventArgs :=
  { channel := ("chat").data, id := ("message").data, handler := some handlerNoReturn }

/-- Counterexample to C2 as stated: the handler declares the two
parameters `x: int` and `y: str` and no return type; the call succeeds,
yet the registered `MessagePayload` schema has exactly one field `x` —
the last annotated parameter `y` was dropped, because the code removes
the last `get_type_hints` entry unconditionally, assuming it is the
declared return type.  So the synthesized payload schema does *not*
have one field per declared handler parameter. -/
theorem C2_counterexample :
    fieldNames handlerNoReturn.hints = [ ("x").data, ("y").data ] ∧
    (add_event St.init docChat argsC2).2.2 = none ∧
    alookup (add_event St.init docChat argsC2).2.1.components.schemas ("MessagePayload").data
      = some (Ty.pydmodel 0 ("MessagePayload").data
          (Fields.cons ("x").data (Ty.prim ("int").data) Fields.nil)) :=
  ⟨rfl, rfl, rfl⟩

/-- C2 (amended): for every call to `add_event` supplying a handler
whose type hints are its annotated parameters followed by a declared
return type, and no explicit payload model, the synthesized payload
schema type has exactly one field per annotated parameter — the return
type excluded and all parameters included, same names in order — each
field typed as `rewrite_type` of the parameter's declared type (its
document-facing shape is `shapeOf`, the structure `rewrite_type`
realizes by C5), and the synthesized type is named
`<TitleizedEventId>Payload` (the event id titleized with underscores
removed).  Without a declared return type the code instead drops the
last annotated parameter (see the counterexample). -/
theorem C2_amended_payload_mirrors_parameters (st : St) (h : Handler) (id : Str)
    (nm ds : Option Str) (adm : MaybeModel) (params : Fields) (rt : Ty)
    (hWF : WF st)
    (hh : h.hints = params.append (Fields.cons sReturn rt Fields.nil))
    (hnd : (fieldNames h.hints).Nodup) :
    ∃ M, (introspect_handler st id nm ds MaybeModel.mnone adm h).payload_model
        = MaybeModel.model M ∧
      strip M = Ty.pydmodel 0 (removeUnderscores (pyTitle id) ++ sPayload)
        (shapeFields params) ∧
      fieldNames (shapeFields params) = fieldNames params := by
  have h1 : (fieldNames h.hints).dropLast = fieldNames params := by
    rw [hh]; exact dropLast_fieldNames_append_single params sReturn rt
  have h2 : buildFields st h.hints (fieldNames params) = rewriteFields st params := by
    apply buildFields_covered
    rw [hh]
    exact coveredBy_self_append params _ (by rw [← hh]; exact hnd)
  have h3 := (rwFields_det st params hWF).1
  refine ⟨_, rfl, ?_, shapeFields_names params⟩
  show strip (Ty.pydmodel (buildFields st h.hints ((fieldNames h.hints).dropLast)).1.fresh
      (removeUnderscores (pyTitle id) ++ sPayload)
      (buildFields st h.hints ((fieldNames h.hints).dropLast)).2)
    = Ty.pydmodel 0 (removeUnderscores (pyTitle id) ++ sPayload) (shapeFields params)
  rw [h1, h2]
  simp only [strip]
  rw [h3]

/-- A handler with one annotated parameter and a declared `bool` return
type. -/
def handlerWithReturn : Handler :=
  { name := ("fn").data, doc := none,
    hints := Fields.cons ("text").data (Ty.prim ("str").data)
      (Fields.cons sReturn (Ty.prim ("bool").data) Fields.nil) }

theorem C2_witness :
    WF St.init ∧
    ∃ M, (introspect_handler St.init ("message").data none none MaybeModel.mnone
        MaybeModel.mnone handlerWithReturn).payload_model = MaybeModel.model M ∧
      strip M = Ty.pydmodel 0 (removeUnderscores (pyTitle ("message").data) ++ sPayload)
        (shapeFields (Fields.cons ("text").data (Ty.prim ("str").data) Fields.nil)) ∧
      fieldNames (shapeFields (Fields.cons ("text").data (Ty.prim ("str").data) Fields.nil))
        = fieldNames (Fields.cons ("text").data (Ty.prim ("str").data) Fields.nil) :=
  ⟨WF_init,
   C2_amended_payload_mirrors_parameters St.init handlerWithReturn ("message").data
     none none MaybeModel.mnone
     (Fields.cons ("text").data (Ty.prim ("str").data) Fields.nil) (Ty.prim ("bool").data)
     WF_init (by rfl) (by decide)⟩

theorem setOperation_components (doc : AsyncAPIDoc) (k : Str) (op : Operation) :
    (setOperation doc k op).components = doc.components := rfl

theorem addChannelMessage_components (doc : AsyncAPIDoc) (chk mid : Str) (m : Message) :
    (addChannelMessage doc chk mid m).components = doc.components := by
  unfold addChannelMessage; cases alookup doc.channels chk <;> rfl

theorem addChannelMessage_ops (doc : AsyncAPIDoc) (chk mid : Str) (m : Message) :
    (addChannelMessage doc chk mid m).operations = doc.operations := by
  unfold addChannelMessage; cases alookup doc.channels chk <;> rfl

theorem finishEvent_components (st : St) (doc : AsyncAPIDoc) (channel : Str) (cr : Reference)
    (id name title : Str) (su de : Option Str) (payload : Option Reference)
    (tags : Option (List Str)) (reply : Option OperationReply) (action : Str) :
    (finishEvent st doc channel cr id name title su de payload
        tags reply action).2.1.components = doc.components := by
  show (setOperation (addChannelMessage doc channel id _) _ _).components = _
  rw [setOperation_components, addChannelMessage_components]

theorem finishEvent_operations_lookup (st : St) (doc : AsyncAPIDoc) (channel : Str)
    (cr : Reference) (id name title : Str) (su de : Option Str) (payload : Option Reference)
    (tags : Option (List Str)) (reply : Option OperationReply) (action : Str) :
    alookup (finishEvent st doc channel cr id name title su de payload
        tags reply action).2.1.operations (channel ++ sSlash ++ id)
      = some { action := action, channel := cr, title := some title, summary := some id,
               messages := some [make_ref (sChannelsP ++ channel ++ sMessagesP ++ id)],
               reply := reply, tags := pyTags tags } := by
  show alookup (aset (addChannelMessage doc channel id _).operations
      (channel ++ sSlash ++ id) _) (channel ++ sSlash ++ id) = _
  exact alookup_aset_self _ _ _

/-- Full characterization of the ack-and-tail part on the success path
with a named ack model and an assigned ack title: the run succeeds, the
ack schema is registered under the model's name, the companion ack
message sits in the channel under `<id>Ack` carrying the ack title, and
the registered operation's reply points at the channel and at exactly
the ack message. -/
theorem ackAndFinish_ack_spec (st2 : St) (docP : AsyncAPIDoc) (chk : Str) (cr : Reference)
    (nid name title : Str) (su de : Option Str) (payload : Option Reference)
    (tags : Option (List Str)) (action : Str) (ackM : Ty) (ackName : Str) (atitle : Str)
    (chP : ChannelItem)
    (hdn : dunderName ackM = some ackName)
    (hchP : alookup docP.channels chk = some chP) :
    (ackAndFinish st2 docP chk cr nid name title su de payload tags action
        (MaybeModel.model ackM) (some atitle)).2.2 = none ∧
    alookup (ackAndFinish st2 docP chk cr nid name title su de payload tags action
        (MaybeModel.model ackM) (some atitle)).2.1.components.schemas ackName = some ackM ∧
    (∃ ch l am, alookup (ackAndFinish st2 docP chk cr nid name title su de payload tags action
        (MaybeModel.model ackM) (some atitle)).2.1.channels chk = some ch ∧
      ch.messages = some l ∧ alookup l (nid ++ sAck) = some am ∧ am.title = some atitle) ∧
    (∃ op, alookup (ackAndFinish st2 docP chk cr nid name title su de payload tags action
        (MaybeModel.model ackM) (some atitle)).2.1.operations (chk ++ sSlash ++ nid) = some op ∧
      op.reply = some (OperationReply.mk (some cr)
        (some [make_ref (sChannelsP ++ chk ++ sMessagesP ++ (nid ++ sAck))]))) := by
  have hchS : alookup (setSchema docP ackName
      (add_ref_prepath (modelSchema ackM) (sCompSchemasP ++ ackName))).channels chk
      = some chP := by rw [setSchema_channels]; exact hchP
  have hchY := addChannelMessage_present
    (setSchema docP ackName (add_ref_prepath (modelSchema ackM) (sCompSchemasP ++ ackName)))
    chk (nid ++ sAck)
    { name := name ++ sUnderscoreAck, title := some atitle,
      payload := (if payload.isSome
        then some (Reference.mk (sHashCompSchemasP ++ ackName)) else none),
      tags := pyTags tags } chP hchS
  have hneq : (nid ++ sAck) ≠ nid :=
    (self_ne_append_cons nid ([ 'c', 'k' ]) 'A').symm
  simp only [ackAndFinish, hdn]
  refine ⟨rfl, ?_, ?_, ?_⟩
  · rw [finishEvent_components]
    rw [addChannelMessage_components]
    exact setSchema_lookup_self _ _ _
  · refine ⟨_, _,
      { name := name ++ sUnderscoreAck, title := some atitle,
        payload := (if payload.isSome
          then some (Reference.mk (sHashCompSchemasP ++ ackName)) else none),
        tags := pyTags tags },
      finishEvent_channels _ _ _ _ _ _ _ _ _ _ _ _ _ _ hchY, rfl, ?_, rfl⟩
    rw [alookup_aset_ne _ _ _ _ hneq]
    exact alookup_aset_self _ _ _
  · exact ⟨_, finishEvent_operations_lookup _ _ _ _ _ _ _ _ _ _ _ _ _, rfl⟩

/-- When the handler declares a non-`None` return type and no ack model
was given, introspection synthesizes the `<TitleizedId>Ack` model —
`success: bool`, `error: Optional[Any]`, `data:` the rewritten return
type — and assigns the ack title. -/
theorem introspect_ack_synth (st : St) (id : Str) (nm ds : Option Str)
    (pm : MaybeModel) (h : Handler) (rt : Ty)
    (hWF : WF st)
    (hrt : h.hints.lookup sReturn = some rt) (hne : rt ≠ Ty.noneType) :
    ∃ k RT,
      (introspect_handler st id nm ds pm MaybeModel.mnone h).ack_data_model
        = MaybeModel.model (Ty.pydmodel k (removeUnderscores (pyTitle id) ++ sAck)
            (Fields.cons sSuccess (Ty.prim sBool)
              (Fields.cons sError
                (Ty.unionTy (Tys.cons (Ty.prim sAny) (Tys.cons Ty.noneType Tys.nil)))
                (Fields.cons sData RT Fields.nil)))) ∧
      (introspect_handler st id nm ds pm MaybeModel.mnone h).ack_title
        = some (removeUnderscores (pyTitle id) ++ sAck) ∧
      strip RT = shapeOf rt := by
  have hWFbf := buildFields_WF h.hints ((fieldNames h.hints).dropLast) st hWF
  simp only [introspect_handler, hrt]
  rw [if_neg hne]
  refine ⟨_, _, rfl, rfl, ?_⟩
  cases pm with
  | mnone =>
      exact (rw_det _ rt (create_model_WF _ (removeUnderscores (pyTitle id) ++ sPayload)
        (buildFields st h.hints ((fieldNames h.hints).dropLast)).2 hWFbf)).1
  | notProvided => exact (rw_det _ rt hWFbf).1
  | model M => exact (rw_det _ rt hWFbf).1

/-- C3: a call to `add_event` that supplies a handler whose declared
return type is not `None`, with no explicit ack model (and that reaches
the registration steps: the channel exists, the id is not a duplicate,
and the payload argument itself does not abort the call earlier)
succeeds, and: an acknowledgement schema named `<TitleizedEventId>Ack`
is registered under `components.schemas` whose document-facing
structure has exactly three fields — `success: bool`, `error:
Optional[Any]`, and `data:` typed as the rewrite of the handler's
return type (`shapeOf rt`, the structure `rewrite_type` realizes by
C5) — a companion ack `Message` is inserted in the same channel under
`<id>Ack` carrying the ack title, and the created `Operation` carries a
reply pointing at the channel whose messages list contains exactly the
pointer to that ack message. -/
theorem C3_return_type_ack_synthesis (st : St) (doc : AsyncAPIDoc) (a : EventArgs)
    (h : Handler) (rt : Ty) (ch0 : ChannelItem)
    (hWF : WF st)
    (hh : a.handler = some h)
    (hrt : h.hints.lookup sReturn = some rt)
    (hne : rt ≠ Ty.noneType)
    (hack : a.ack_data_model = MaybeModel.mnone)
    (hpm : payloadArgOK a.payload_model)
    (hch : alookup doc.channels (sanitize_id a.channel) = some ch0)
    (hdup : alookup (ch0.messages.getD []) (normalize_event_id a.id) = none) :
    (add_event st doc a).2.2 = none ∧
    (∃ A, alookup (add_event st doc a).2.1.components.schemas
        (removeUnderscores (pyTitle (normalize_event_id a.id)) ++ sAck) = some A ∧
      strip A = Ty.pydmodel 0
        (removeUnderscores (pyTitle (normalize_event_id a.id)) ++ sAck)
        (Fields.cons sSuccess (Ty.prim sBool)
          (Fields.cons sError
            (Ty.unionTy (Tys.cons (Ty.prim sAny) (Tys.cons Ty.noneType Tys.nil)))
            (Fields.cons sData (shapeOf rt) Fields.nil)))) ∧
    (∃ ch l am, alookup (add_event st doc a).2.1.channels (sanitize_id a.channel) = some ch ∧
      ch.messages = some l ∧
      alookup l (normalize_event_id a.id ++ sAck) = some am ∧
      am.title = some (removeUnderscores (pyTitle (normalize_event_id a.id)) ++ sAck)) ∧
    (∃ op, alookup (add_event st doc a).2.1.operations
        (sanitize_id a.channel ++ sSlash ++ normalize_event_id a.id) = some op ∧
      op.reply = some (OperationReply.mk
        (some (make_ref (sChannelsP ++ sanitize_id a.channel)))
        (some [make_ref (sChannelsP ++ sanitize_id a.channel ++ sMessagesP
          ++ (normalize_event_id a.id ++ sAck))]))) := by
  have hdup1 : ∀ (b : Bool),
      (alookup ((if b then ({ ch0 with messages := some [] } : ChannelItem) else ch0).messages.getD [])
        (normalize_event_id a.id)).isSome = false := by
    intro b; cases b <;> simp [alookup, hdup]
  have hch1 : alookup (if falsyMsgs ch0.messages
      then setChannel doc (sanitize_id a.channel)
        (if falsyMsgs ch0.messages then { ch0 with messages := some [] } else ch0)
      else doc).channels (sanitize_id a.channel)
      = some (if falsyMsgs ch0.messages then { ch0 with messages := some [] } else ch0) := by
    cases falsyMsgs ch0.messages <;> simp [setChannel, alookup_aset_self, hch]
  simp only [add_event, hch, hh, hack]
  rw [hdup1 (falsyMsgs ch0.messages)]
  simp only [Bool.false_eq_true, if_false]
  cases hp : a.payload_model with
  | notProvided => exact absurd hpm (by rw [hp]; exact id)
  | mnone =>
      obtain ⟨k, RT, hA, hT, hRT⟩ := introspect_ack_synth st (normalize_event_id a.id)
        a.name a.description MaybeModel.mnone h rt hWF hrt hne
      obtain ⟨kp, fl, hpm2⟩ := introspect_payload_mnone st (normalize_event_id a.id)
        a.name a.description MaybeModel.mnone h
      rw [hpm2]
      try dsimp only
      simp only [dunderName]
      rw [hA, hT]
      have hspec := ackAndFinish_ack_spec
        (introspect_handler st (normalize_event_id a.id) a.name a.description
          MaybeModel.mnone MaybeModel.mnone h).st
        (setSchema (if falsyMsgs ch0.messages
          then setChannel doc (sanitize_id a.channel)
            (if falsyMsgs ch0.messages then { ch0 with messages := some [] } else ch0)
          else doc)
          (removeUnderscores (pyTitle (normalize_event_id a.id)) ++ sPayload)
          (add_ref_prepath (modelSchema (Ty.pydmodel kp
            (removeUnderscores (pyTitle (normalize_event_id a.id)) ++ sPayload) fl))
            (sCompSchemasP ++ (removeUnderscores (pyTitle (normalize_event_id a.id)) ++ sPayload))))
        (sanitize_id a.channel) (make_ref (sChannelsP ++ sanitize_id a.channel))
        (normalize_event_id a.id)
        (orDefault (introspect_handler st (normalize_event_id a.id) a.name a.description
          MaybeModel.mnone MaybeModel.mnone h).name (normalize_event_id a.id))
        (orDefault a.title (orDefault (introspect_handler st (normalize_event_id a.id)
          a.name a.description MaybeModel.mnone MaybeModel.mnone h).name
          (normalize_event_id a.id)))
        a.summary
        (introspect_handler st (normalize_event_id a.id) a.name a.description
          MaybeModel.mnone MaybeModel.mnone h).description
        (some (Reference.mk (sHashCompSchemasP
          ++ (removeUnderscores (pyTitle (normalize_event_id a.id)) ++ sPayload))))
        a.tags a.action
        (Ty.pydmodel k (removeUnderscores (pyTitle (normalize_event_id a.id)) ++ sAck)
          (Fields.cons sSuccess (Ty.prim sBool)
            (Fields.cons sError
              (Ty.unionTy (Tys.cons (Ty.prim sAny) (Tys.cons Ty.noneType Tys.nil)))
              (Fields.cons sData RT Fields.nil))))
        (removeUnderscores (pyTitle (normalize_event_id a.id)) ++ sAck)
        (removeUnderscores (pyTitle (normalize_event_id a.id)) ++ sAck)
        (if falsyMsgs ch0.messages then { ch0 with messages := some [] } else ch0)
        (by rfl)
        (by rw [setSchema_channels]; exact hch1)
      refine ⟨hspec.1, ⟨_, hspec.2.1, ?_⟩, hspec.2.2.1, hspec.2.2.2⟩
      simp only [strip, stripFields, stripList]
      rw [hRT]
  | model Mp =>
      have hpm' : (dunderName Mp).isSome := by rw [hp] at hpm; exact hpm
      obtain ⟨pn, hpn⟩ := Option.isSome_iff_exists.mp hpm'
      obtain ⟨k, RT, hA, hT, hRT⟩ := introspect_ack_synth st (normalize_event_id a.id)
        a.name a.description (MaybeModel.model Mp) h rt hWF hrt hne
      rw [introspect_payload_passthrough]
      simp only [hpn]
      try dsimp only
      rw [hA, hT]
      have hspec := ackAndFinish_ack_spec
        (introspect_handler st (normalize_event_id a.id) a.name a.description
          (MaybeModel.model Mp) MaybeModel.mnone h).st
        (setSchema (if falsyMsgs ch0.messages
          then setChannel doc (sanitize_id a.channel)
            (if falsyMsgs ch0.messages then { ch0 with messages := some [] } else ch0)
          else doc)
          pn (add_ref_prepath (modelSchema Mp) (sCompSchemasP ++ pn)))
        (sanitize_id a.channel) (make_ref (sChannelsP ++ sanitize_id a.channel))
        (normalize_event_id a.id)
        (orDefault (introspect_handler st (normalize_event_id a.id) a.name a.description
          (MaybeModel.model Mp) MaybeModel.mnone h).name (normalize_event_id a.id))
        (orDefault a.title (orDefault (introspect_handler st (normalize_event_id a.id)
          a.name a.description (MaybeModel.model Mp) MaybeModel.mnone h).name
          (normalize_event_id a.id)))
        a.summary
        (introspect_handler st (normalize_event_id a.id) a.name a.description
          (MaybeModel.model Mp) MaybeModel.mnone h).description
        (some (Reference.mk (sHashCompSchemasP ++ pn)))
        a.tags a.action
        (Ty.pydmodel k (removeUnderscores (pyTitle (normalize_event_id a.id)) ++ sAck)
          (Fields.cons sSuccess (Ty.prim sBool)
            (Fields.cons sError
              (Ty.unionTy (Tys.cons (Ty.prim sAny) (Tys.cons Ty.noneType Tys.nil)))
              (Fields.cons sData RT Fields.nil))))
        (removeUnderscores (pyTitle (normalize_event_id a.id)) ++ sAck)
        (removeUnderscores (pyTitle (normalize_event_id a.id)) ++ sAck)
        (if falsyMsgs ch0.messages then { ch0 with messages := some [] } else ch0)
        (by rfl)
        (by rw [setSchema_channels]; exact hch1)
      refine ⟨hspec.1, ⟨_, hspec.2.1, ?_⟩, hspec.2.2.1, hspec.2.2.2⟩
      simp only [strip, stripFields, stripList]
      rw [hRT]

/-- The concrete arguments of the C3 witness: the spec's end-to-end
scenario, a handler `fn(text: str) -> bool` registered under
`on_message` on channel `chat`. -/
def argsC3 : EventArgs :=
  { channel := ("chat").data, id := ("on_message").data, handler := some handlerWithReturn }

theorem C3_witness :
    (add_event St.init docChat argsC3).2.2 = none ∧
    (∃ A, alookup (add_event St.init docChat argsC3).2.1.components.schemas
        (removeUnderscores (pyTitle (normalize_event_id argsC3.id)) ++ sAck) = some A ∧
      strip A = Ty.pydmodel 0
        (removeUnderscores (pyTitle (normalize_event_id argsC3.id)) ++ sAck)
        (Fields.cons sSuccess (Ty.prim sBool)
          (Fields.cons sError
            (Ty.unionTy (Tys.cons (Ty.prim sAny) (Tys.cons Ty.noneType Tys.nil)))
            (Fields.cons sData (shapeOf (Ty.prim ("bool").data)) Fields.nil)))) ∧
    (∃ ch l am, alookup (add_event St.init docChat argsC3).2.1.channels
        (sanitize_id argsC3.channel) = some ch ∧
      ch.messages = some l ∧
      alookup l (normalize_event_id argsC3.id ++ sAck) = some am ∧
      am.title = some (removeUnderscores (pyTitle (normalize_event_id argsC3.id)) ++ sAck)) ∧
    (∃ op, alookup (add_event St.init docChat argsC3).2.1.operations
        (sanitize_id argsC3.channel ++ sSlash ++ normalize_event_id argsC3.id) = some op ∧
      op.reply = some (OperationReply.mk
        (some (make_ref (sChannelsP ++ sanitize_id argsC3.channel)))
        (some [make_ref (sChannelsP ++ sanitize_id argsC3.channel ++ sMessagesP
          ++ (normalize_event_id argsC3.id ++ sAck))]))) :=
  C3_return_type_ack_synthesis St.init docChat argsC3 handlerWithReturn
    (Ty.prim ("bool").data) chW WF_init (by rfl) (by rfl)
    (fun hcon => Ty.noConfusion hcon) (by rfl) (by trivial) (by rfl) (by rfl)
